import Mathlib

/-!
Verification development for the appointment-slot reservation and
scheduling-query engine of the iaclinics repository.

The embedded source files are:

* `tools/llm-tools.js` — the reservation engine (`_reservarSlot`), the
  transaction coordinator (`criarAgendamentoDB`, `desmarcarAgendamentoDB`),
  the resolvers (`normalizeEspecialidadeTerm`, `_resolveEspecialidadeIds`,
  `listarMedicosDB`), and the query operations (`listarEspecialidadesDB`,
  `listarHorariosMedicoDB`, `listarAgendaSemanalMedicoDB`, …);
* `helpers/datetime.js` — the time-zone range calculator;
* `helpers/validators.js` — CPF / e-mail / phone validators.

Modelling conventions.  The Supabase store is embedded as explicit state: a
`DB` record of row lists, with the client's conditional-update
(`update … .eq('status', 'livre')`), `.maybeSingle()` and `.single()`
semantics made explicit.  Timestamps are integer milliseconds since the Unix
epoch (the value of `Date.getTime()`); the IANA zone database behind `Intl`
is abstracted as an offset function `off : Int → Int` giving the zone's UTC
offset in minutes at an instant, and the `en-CA` `YYYY-MM-DD` formatter is
modelled by the local civil day expressed as its epoch-day number (the
formatted string and the civil day determine each other).  The two external
LLM normalizers (`normalizeDateTimeToUTC`, `normalizeBirthDate`), the zod
e-mail format check, and the outcome of the `appointments` insert are inputs
of the coordinator, passed in a `BookEnv` record.  JavaScript float scores
are modelled as rationals.
-/

namespace IaClinics

/-! ### Character-level helpers mirroring the JavaScript string primitives -/

/-- Whitespace recognised by `String.prototype.trim` (ASCII relevant part). -/
def isJsWs (c : Char) : Bool :=
  c = ' ' || c = '\t' || c = '\n' || c = '\r' || c = '\x0b' || c = '\x0c'

/-- JavaScript `String.prototype.trim` on a character list. -/
def trimL (l : List Char) : List Char :=
  ((l.dropWhile isJsWs).reverse.dropWhile isJsWs).reverse

/-- JavaScript `trim` on strings. -/
def jsTrim (s : String) : String := String.mk (trimL s.toList)

/-- ASCII lower-casing of one character, as `toLowerCase` acts on ASCII. -/
def lowerChar (c : Char) : Char :=
  if 'A' ≤ c ∧ c ≤ 'Z' then Char.ofNat (c.toNat + 32) else c

/-- JavaScript `toLowerCase` (ASCII part; the resolver terms are ASCII or
Latin-1 letters, and the Latin-1 letters used by the alias table are already
lower-case). -/
def jsLower (s : String) : String := String.mk (s.toList.map lowerChar)

/-- Check that `pre` is a prefix of `l`. -/
def isPrefixL : List Char → List Char → Bool
  | [], _ => true
  | _ :: _, [] => false
  | a :: as, b :: bs => a = b && isPrefixL as bs

/-- Check that `needle` occurs as a contiguous substring of `hay`. -/
def containsL (hay needle : List Char) : Bool :=
  match hay with
  | [] => needle.isEmpty
  | _ :: t => isPrefixL needle hay || containsL t needle

/-- Case-insensitive substring test: the model of the Postgres
`ilike '%term%'` filter used by the specialty resolver. -/
def ilikeContains (hay needle : String) : Bool :=
  containsL (jsLower hay).toList (jsLower needle).toList

/-- Digits of a string, as numbers — `String(x).replace(/\D/g, '')` read off
as a digit list. -/
def digitsOf (s : String) : List Nat :=
  s.toList.filterMap (fun c => if c.isDigit then some (c.toNat - 48) else none)

/-! ### The Supabase store -/

/-- Row of the `agenda_slots` table. -/
structure Slot where
  id : Nat
  medico_id : String
  datetime : Int
  duration_min : Option Int
  status : String
deriving DecidableEq, Repr

/-- Row of the `appointments` table (the columns written and read by the
booking and cancellation flows). -/
structure Appointment where
  id : Nat
  name : String
  cpf : String
  birthdate : String
  specialty : String
  region : String
  phone : String
  email : String
  reason : Option String
  datetime : Int
  consent : Bool
  status : String
  source : String
  slot_id : Option Nat
  medico_id : Option String
deriving DecidableEq, Repr

/-- Row of the `medicos` table (the columns used here). -/
structure Medico where
  id : String
  nome : String
deriving DecidableEq, Repr

/-- Row of the `especialidades` table. -/
structure Especialidade where
  id : Nat
  nome : String
deriving DecidableEq, Repr

/-- The mutable store: the tables touched by the reservation engine and the
transaction coordinator. -/
structure DB where
  slots : List Slot
  appointments : List Appointment
  medicos : List Medico
deriving DecidableEq, Repr

/-- Supabase `.maybeSingle()`: `none` for zero rows, the row for one, an
error for several. -/
def maybeSingle {α : Type} : List α → Except Unit (Option α)
  | [] => .ok none
  | [a] => .ok (some a)
  | _ :: _ :: _ => .error ()

/-- Supabase `.single()`: the row for exactly one row, an error otherwise. -/
def single {α : Type} : List α → Except Unit α
  | [a] => .ok a
  | _ => .error ()

/-- Replace the status of a slot row. -/
def setStatus (st : String) (s : Slot) : Slot := { s with status := st }

/-- Conditional update on `agenda_slots`: set `status := st` on every row
satisfying `p`; first component is the list of updated rows (what the
client's `.select()` returns), second the table afterwards.  This is the
store-side compare-and-set the reservation design relies on. -/
def condUpdateSlots (slots : List Slot) (p : Slot → Bool) (st : String) :
    List Slot × List Slot :=
  ((slots.filter p).map (setStatus st),
   slots.map (fun s => if p s then setStatus st s else s))

/-! ### The slot reservation engine (`_reservarSlot`) -/

/-- Outcome of `_reservarSlot`: the reserved row, or `ok:false` with the
user-facing message of the source. -/
inductive ReserveResult where
  | ok (slot : Slot)
  | fail (message : String)
deriving DecidableEq, Repr

/-- Message returned when a conditional reserve-by-id matches no row. -/
def slotUnavailableByIdMsg : String :=
  "Horário indisponível (não estava livre ou ID inválido)."

/-- Message returned when several doctors share the requested instant. -/
def ambiguousSlotMsg : String :=
  "Há mais de um médico com esse horário. Informe o médico ou escolha um horário da lista."

/-- The `order('id', { ascending: true })` of the candidate query. -/
def sortByIdAsc (l : List Slot) : List Slot :=
  List.insertionSort (fun a b => a.id ≤ b.id) l

/-- Filter of the candidate query: same instant, free, and — when a doctor
was given — that doctor. -/
def slotMatches (isoUTC : Int) (medicoId : Option String) (s : Slot) : Bool :=
  s.datetime == isoUTC && s.status == "livre" &&
    (match medicoId with
     | some m => s.medico_id == m
     | none => true)

/-- Final step of the no-`slotId` path of `_reservarSlot`: the conditional
`livre → agendado` update on the located candidate, read back with
`.single()`. -/
def tryLock (db : DB) (candidate : Slot) : ReserveResult × DB :=
  let r := condUpdateSlots db.slots
    (fun s => s.id == candidate.id && s.status == "livre") "agendado"
  (match single r.1 with
   | .error _ => .fail "Horário indisponível."
   | .ok locked => .ok locked,
   { db with slots := r.2 })

/-- No-`slotId` path of `_reservarSlot`: read up to two free slots at the
instant (one when a doctor was given), detect ambiguity, then attempt the
conditional transition on the single candidate. -/
def reservarSemId (db : DB) (isoUTC : Int) (medicoId : Option String) :
    ReserveResult × DB :=
  match (sortByIdAsc (db.slots.filter (slotMatches isoUTC medicoId))).take
      (if medicoId.isSome then 1 else 2) with
  | [] => (.fail "Horário indisponível.", db)
  | candidate :: rest =>
      if medicoId.isNone && !rest.isEmpty then
        (.fail ambiguousSlotMsg, db)
      else
        tryLock db candidate

/-- Embedding of `_reservarSlot` from `tools/llm-tools.js`.  With a
`slotId`, one conditional `livre → agendado` update on that id.  Without
one, the locate-then-conditionally-lock path of `reservarSemId`.  Store I/O
errors do not occur in this state model; the `.maybeSingle()` / `.single()`
shape errors are kept. -/
def reservarSlot (db : DB) (slotId : Option Nat) (isoUTC : Int)
    (medicoId : Option String) : ReserveResult × DB :=
  match slotId with
  | some idNum =>
      let r := condUpdateSlots db.slots
        (fun s => s.id == idNum && s.status == "livre") "agendado"
      (match maybeSingle r.1 with
       | .error _ => .fail "Erro ao reservar o horário (permissão/RLS?)."
       | .ok none => .fail slotUnavailableByIdMsg
       | .ok (some upd) => .ok upd,
       { db with slots := r.2 })
  | none => reservarSemId db isoUTC medicoId

/-- Sequential composition of `n` reserve-by-id attempts on the same slot.
Each attempt is a single store-side conditional update — the only step that
touches shared state — so an arbitrary interleaving of `n` concurrent
attempts is exactly a sequence of `n` such atomic steps. -/
def reserveRepeat (db : DB) (sid : Nat) : Nat → List ReserveResult × DB
  | 0 => ([], db)
  | n + 1 =>
      let r := reservarSlot db (some sid) 0 none
      let rest := reserveRepeat r.2 sid n
      (r.1 :: rest.1, rest.2)

/-! ### Lemmas about the conditional update -/

theorem filter_eq_singleton_of {α : Type} [DecidableEq α] (l : List α)
    (p : α → Bool) (a : α) (hnd : l.Nodup) (hmem : a ∈ l) (hp : p a = true)
    (huniq : ∀ x ∈ l, p x = true → x = a) : l.filter p = [a] := by
  induction l with
  | nil => cases hmem
  | cons b t ih =>
      rcases List.nodup_cons.mp hnd with ⟨hbt, hndt⟩
      rcases List.mem_cons.mp hmem with hba | hat
      · subst hba
        simp only [List.filter_cons, hp, if_true]
        have ht : t.filter p = [] := by
          refine List.filter_eq_nil_iff.mpr ?_
          intro x hx hpx
          have hxa := huniq x (List.mem_cons_of_mem _ hx) hpx
          rw [hxa] at hx
          exact hbt hx
        simp [ht]
      · have hpb : p b = false := by
          cases hq : p b with
          | false => rfl
          | true =>
              have hb := huniq b (List.mem_cons_self b t) hq
              rw [hb] at hbt
              exact absurd hat hbt
        simp only [List.filter_cons, hpb]
        exact ih hndt hat (fun x hx hpx => huniq x (List.mem_cons_of_mem _ hx) hpx)

theorem map_eq_self_of {α : Type} (l : List α) (f : α → α)
    (h : ∀ x ∈ l, f x = x) : l.map f = l := by
  calc l.map f = l.map id := List.map_congr_left h
  _ = l := List.map_id l

/-- After a `livre → agendado` conditional update on id `sid`, no row with
that id is still free. -/
theorem condUpdateSlots_reserve_no_free (slots : List Slot) (sid : Nat) :
    ∀ x ∈ (condUpdateSlots slots (fun s => s.id == sid && s.status == "livre") "agendado").2,
      ¬(x.id = sid ∧ x.status = "livre") := by
  intro x hx
  simp only [condUpdateSlots, List.mem_map] at hx
  rcases hx with ⟨y, _, hy⟩
  by_cases hp : (y.id == sid && y.status == "livre") = true
  · simp only [hp, if_true] at hy
    subst hy
    intro hc
    simp [setStatus] at hc
  · simp only [hp, if_false, Bool.false_eq_true] at hy
    subst hy
    intro hc
    simp only [Bool.and_eq_true, beq_iff_eq] at hp
    exact hp ⟨hc.1, hc.2⟩

/-- A conditional update whose condition holds nowhere leaves the table
unchanged. -/
theorem condUpdateSlots_id_of_no_match (slots : List Slot) (p : Slot → Bool)
    (st : String) (h : ∀ x ∈ slots, p x = false) :
    (condUpdateSlots slots p st).1 = [] ∧ (condUpdateSlots slots p st).2 = slots := by
  constructor
  · simp only [condUpdateSlots]
    rw [List.filter_eq_nil_iff.mpr (by intro a ha; simp [h a ha])]
    rfl
  · simp only [condUpdateSlots]
    exact map_eq_self_of _ _ (fun x hx => by simp [h x hx])

/-- Reserve-by-id on a table with a unique free row of that id: the update
returns exactly that row, reserved. -/
theorem condUpdateSlots_reserve_hit (slots : List Slot) (sid : Nat) (s0 : Slot)
    (hnd : (slots.map Slot.id).Nodup) (hmem : s0 ∈ slots) (hid : s0.id = sid)
    (hst : s0.status = "livre") :
    (condUpdateSlots slots (fun s => s.id == sid && s.status == "livre") "agendado").1 =
      [setStatus "agendado" s0] := by
  have hinj := List.inj_on_of_nodup_map hnd
  have hfil : slots.filter (fun s => s.id == sid && s.status == "livre") = [s0] := by
    refine filter_eq_singleton_of _ _ _ (hnd.of_map) hmem (by simp [hid, hst]) ?_
    intro x hx hpx
    simp only [Bool.and_eq_true, beq_iff_eq] at hpx
    exact hinj hx hmem (by rw [hpx.1, hid])
  simp only [condUpdateSlots, hfil, List.map]

/-! ### C1 — reservation exclusivity -/

/-- Once no free row with id `sid` exists, every further reserve-by-id
attempt fails with the unavailability message and preserves that state. -/
theorem reserveRepeat_of_no_free (sid : Nat) :
    ∀ (n : Nat) (db : DB), (∀ x ∈ db.slots, ¬(x.id = sid ∧ x.status = "livre")) →
      (reserveRepeat db sid n).1 = List.replicate n (.fail slotUnavailableByIdMsg) := by
  intro n
  induction n with
  | zero => intro db _; rfl
  | succ m ih =>
      intro db hfree
      have hnom : ∀ x ∈ db.slots,
          (fun s => s.id == sid && s.status == "livre") x = false := by
        intro x hx
        have := hfree x hx
        simp only [Bool.and_eq_true, beq_iff_eq, not_and] at this ⊢
        by_cases h1 : x.id = sid
        · simp [h1, this h1]
        · simp [h1]
      obtain ⟨h1, h2⟩ := condUpdateSlots_id_of_no_match db.slots _ "agendado" hnom
      have hdb : ({ db with slots := (condUpdateSlots db.slots
          (fun s => s.id == sid && s.status == "livre") "agendado").2 } : DB) = db := by
        cases db
        simp [h2]
      simp only [reserveRepeat, reservarSlot, h1, maybeSingle, List.replicate, hdb,
        ih db hfree]

/-- Claim C1.  A free slot, `n ≥ 2` reservation attempts on its id, each an
atomic store-side conditional update (so any interleaving of concurrent
attempts is a sequence of such steps): the first attempt in store order
succeeds with the reserved row and every other attempt fails with the
unavailability message — exactly one winner. -/
theorem c1_reserve_exclusive (db : DB) (sid : Nat) (s0 : Slot) (n : Nat)
    (hnd : (db.slots.map Slot.id).Nodup) (hmem : s0 ∈ db.slots)
    (hid : s0.id = sid) (hst : s0.status = "livre") (hn : 2 ≤ n) :
    (reserveRepeat db sid n).1 =
      ReserveResult.ok (setStatus "agendado" s0) ::
        List.replicate (n - 1) (.fail slotUnavailableByIdMsg) ∧
    ((reserveRepeat db sid n).1.countP
      (fun r => match r with | .ok _ => true | .fail _ => false)) = 1 := by
  obtain ⟨m, rfl⟩ : ∃ m, n = m + 1 := ⟨n - 1, by omega⟩
  have hhit := condUpdateSlots_reserve_hit db.slots sid s0 hnd hmem hid hst
  have hmain : (reserveRepeat db sid (m + 1)).1 =
      ReserveResult.ok (setStatus "agendado" s0) ::
        List.replicate m (.fail slotUnavailableByIdMsg) := by
    have htail := reserveRepeat_of_no_free sid m
      ({ db with slots := (condUpdateSlots db.slots
          (fun s => s.id == sid && s.status == "livre") "agendado").2 } : DB)
      (condUpdateSlots_reserve_no_free db.slots sid)
    simp only [reserveRepeat, reservarSlot, hhit, maybeSingle, htail]
  refine ⟨by simpa using hmain, ?_⟩
  rw [hmain]
  simp [List.countP_cons]

/-- Witness for C1: two attempts on the one free slot of a concrete store —
one success, one unavailability failure. -/
theorem c1_reserve_exclusive_witness :
    (reserveRepeat
        ⟨[⟨7, "m1", 100, some 30, "livre"⟩], [], []⟩ 7 2).1 =
      ReserveResult.ok (setStatus "agendado" ⟨7, "m1", 100, some 30, "livre"⟩) ::
        List.replicate 1 (.fail slotUnavailableByIdMsg) ∧
    ((reserveRepeat
        ⟨[⟨7, "m1", 100, some 30, "livre"⟩], [], []⟩ 7 2).1.countP
      (fun r => match r with | .ok _ => true | .fail _ => false)) = 1 :=
  c1_reserve_exclusive ⟨[⟨7, "m1", 100, some 30, "livre"⟩], [], []⟩ 7
    ⟨7, "m1", 100, some 30, "livre"⟩ 2 (by decide) (by decide) rfl rfl (by decide)

/-! ### C4 — ambiguity detection when no slot id is given -/

/-- After a conditional `livre → agendado` update keyed on id `cid` whose
unique row of that id was free, every row of that id is reserved. -/
theorem condUpdateSlots_reserve_all_reserved (slots : List Slot) (c : Slot)
    (hnd : (slots.map Slot.id).Nodup) (hc : c ∈ slots) (hst : c.status = "livre") :
    ∀ x ∈ (condUpdateSlots slots
        (fun s => s.id == c.id && s.status == "livre") "agendado").2,
      x.id = c.id → x.status = "agendado" := by
  intro x hx hxid
  simp only [condUpdateSlots, List.mem_map] at hx
  rcases hx with ⟨y, hy2, hy3⟩
  by_cases hp : (y.id == c.id && y.status == "livre") = true
  · rw [if_pos hp] at hy3
    rw [← hy3]
    rfl
  · rw [if_neg hp] at hy3
    subst hy3
    simp only [Bool.and_eq_true, beq_iff_eq] at hp
    have hyc : y = c := List.inj_on_of_nodup_map hnd hy2 hc (by rw [hxid])
    rw [hyc] at hp
    exact absurd ⟨rfl, hst⟩ hp

/-- Claim C4.  Reserve with neither `slotId` nor `doctorId`: with at least
two free slots at the instant the call fails with the ambiguity message and
the store is untouched; with exactly one it performs the conditional
`livre → agendado` transition on that slot and succeeds. -/
theorem c4_reserve_ambiguity (db : DB) (isoUTC : Int) :
    (2 ≤ (db.slots.filter (slotMatches isoUTC none)).length →
      (reservarSlot db none isoUTC none).1 = .fail ambiguousSlotMsg ∧
      (reservarSlot db none isoUTC none).2 = db) ∧
    (∀ c, (db.slots.map Slot.id).Nodup →
      db.slots.filter (slotMatches isoUTC none) = [c] →
      (reservarSlot db none isoUTC none).1 = .ok (setStatus "agendado" c) ∧
      ∀ x ∈ (reservarSlot db none isoUTC none).2.slots,
        x.id = c.id → x.status = "agendado") := by
  constructor
  · intro hlen
    have hslen : 2 ≤ (sortByIdAsc (db.slots.filter (slotMatches isoUTC none))).length := by
      rwa [sortByIdAsc, List.length_insertionSort]
    have hne : sortByIdAsc (db.slots.filter (slotMatches isoUTC none)) ≠ [] := by
      intro h
      rw [h] at hslen
      simp at hslen
    obtain ⟨a, l1, h1⟩ := List.exists_cons_of_ne_nil hne
    have hl1 : l1 ≠ [] := by
      intro h
      rw [h1, h] at hslen
      simp at hslen
    obtain ⟨b, l2, h2⟩ := List.exists_cons_of_ne_nil hl1
    rw [h2] at h1
    have htake : (sortByIdAsc (db.slots.filter (slotMatches isoUTC none))).take
        (if (none : Option String).isSome then 1 else 2) = [a, b] := by
      rw [h1]
      rfl
    have hres : reservarSlot db none isoUTC none = (.fail ambiguousSlotMsg, db) := by
      rw [show reservarSlot db none isoUTC none = reservarSemId db isoUTC none from rfl]
      unfold reservarSemId
      rw [htake]
      rfl
    exact ⟨by rw [hres], by rw [hres]⟩
  · intro c hnd hfil
    have hc : c ∈ db.slots ∧ slotMatches isoUTC none c = true :=
      List.mem_filter.mp (by rw [hfil]; exact List.mem_singleton_self c)
    have hst : c.status = "livre" := by
      have h2 := hc.2
      simp only [slotMatches, Bool.and_eq_true, beq_iff_eq] at h2
      exact h2.1.2
    have hhit := condUpdateSlots_reserve_hit db.slots c.id c hnd hc.1 rfl hst
    have htake : (sortByIdAsc (db.slots.filter (slotMatches isoUTC none))).take
        (if (none : Option String).isSome then 1 else 2) = [c] := by
      rw [hfil]
      rfl
    have hres : reservarSlot db none isoUTC none =
        (.ok (setStatus "agendado" c),
          { db with slots := (condUpdateSlots db.slots
              (fun s => s.id == c.id && s.status == "livre") "agendado").2 }) := by
      rw [show reservarSlot db none isoUTC none = reservarSemId db isoUTC none from rfl]
      unfold reservarSemId
      rw [htake]
      show tryLock db c = _
      unfold tryLock
      simp only [hhit, single]
    refine ⟨by rw [hres], ?_⟩
    rw [hres]
    exact condUpdateSlots_reserve_all_reserved db.slots c hnd hc.1 hst

/-- Witness for C4: a concrete store exercising both branches — two free
slots at instant 100 give the ambiguity failure with the store untouched;
a different store with exactly one matching slot reserves it. -/
theorem c4_reserve_ambiguity_witness :
    ((reservarSlot ⟨[⟨1, "m1", 100, none, "livre"⟩, ⟨2, "m2", 100, none, "livre"⟩], [], []⟩
        none 100 none).1 = .fail ambiguousSlotMsg ∧
      (reservarSlot ⟨[⟨1, "m1", 100, none, "livre"⟩, ⟨2, "m2", 100, none, "livre"⟩], [], []⟩
        none 100 none).2 =
        ⟨[⟨1, "m1", 100, none, "livre"⟩, ⟨2, "m2", 100, none, "livre"⟩], [], []⟩) ∧
    ((reservarSlot ⟨[⟨1, "m1", 100, none, "livre"⟩, ⟨2, "m2", 200, none, "livre"⟩], [], []⟩
        none 200 none).1 = .ok (setStatus "agendado" ⟨2, "m2", 200, none, "livre"⟩) ∧
      ∀ x ∈ (reservarSlot ⟨[⟨1, "m1", 100, none, "livre"⟩, ⟨2, "m2", 200, none, "livre"⟩], [], []⟩
          none 200 none).2.slots,
        x.id = (⟨2, "m2", 200, none, "livre"⟩ : Slot).id → x.status = "agendado") :=
  ⟨(c4_reserve_ambiguity ⟨[⟨1, "m1", 100, none, "livre"⟩, ⟨2, "m2", 100, none, "livre"⟩], [], []⟩
      100).1 (by decide),
   (c4_reserve_ambiguity ⟨[⟨1, "m1", 100, none, "livre"⟩, ⟨2, "m2", 200, none, "livre"⟩], [], []⟩
      200).2 ⟨2, "m2", 200, none, "livre"⟩ (by decide) (by decide)⟩

/-! ### Validators (`helpers/validators.js`) -/

/-- Check digit of the CPF algorithm: weighted digit sum, times ten, mod
eleven, with ten collapsed to zero. -/
def cpfCalc (base : List Nat) : Nat :=
  let n := base.length
  let sum := (base.enum.map (fun q => q.2 * (n + 1 - q.1))).sum
  let m := (sum * 10) % 11
  if m = 10 then 0 else m

/-- Test for eleven identical digits — the `/^(\d)\1{10}$/` reject. -/
def allSameDigits : List Nat → Bool
  | [] => true
  | d :: rest => rest.all (fun x => x == d)

/-- Embedding of `isValidCPF`: keep the digits, require exactly eleven, not
all equal, and the two check digits recomputed from the first nine. -/
def isValidCPF (input : String) : Bool :=
  let s := digitsOf input
  if s.length ≠ 11 then false
  else if allSameDigits s then false
  else
    let d1 := cpfCalc (s.take 9)
    let d2 := cpfCalc (s.take 9 ++ [d1])
    decide (s = s.take 9 ++ [d1, d2])

/-- Embedding of `isValidEmail`, the regex
`/^[^\s@]+@[^\s@]+\.[^\s@]+$/` on the trimmed string: no whitespace, a
unique `@` with a non-empty part before it, and after it a dot at an inner
position (non-empty on both sides). -/
def isValidEmail (s : String) : Bool :=
  let l := trimL s.toList
  let localPart := l.takeWhile (fun c => c ≠ '@')
  let domain := (l.dropWhile (fun c => c ≠ '@')).drop 1
  l.all (fun c => !isJsWs c) && l.count '@' == 1 &&
    !localPart.isEmpty && !domain.isEmpty &&
    ((domain.drop 1).dropLast.contains '.')

/-- Embedding of `normalizeWhatsNumber` with the default country code 55:
keep digits, strip an international `00`, strip a trunk `0` on 11/12-digit
numbers, prefix `55` on bare 10/11-digit numbers, and drop a `0` right
after the `55` prefix. -/
def normalizeWhatsNumber (input : String) : String :=
  let d0 := input.toList.filter (fun c => c.isDigit)
  if d0.isEmpty then "" else
  let d1 := if isPrefixL ['0', '0'] d0 then d0.drop 2 else d0
  let d2 := if (d1.length = 11 ∨ d1.length = 12) ∧ isPrefixL ['0'] d1 then d1.drop 1 else d1
  let d3 := if ¬ (isPrefixL ['5', '5'] d2 = true) ∧ (d2.length = 10 ∨ d2.length = 11) then
      '5' :: '5' :: d2 else d2
  let d4 := if isPrefixL ['5', '5', '0'] d3 then '5' :: '5' :: d3.drop 3 else d3
  String.mk d4

/-- Embedding of `isValidWhatsNumber` with the default country code 55:
eleven to fifteen digits, and for numbers with the `55` prefix a national
part of ten or eleven digits. -/
def isValidWhatsNumber (n : String) : Bool :=
  let s := n.toList.filter (fun c => c.isDigit)
  if ¬ (11 ≤ s.length ∧ s.length ≤ 15) then false
  else if isPrefixL ['5', '5'] s then
    decide (10 ≤ (s.drop 2).length ∧ (s.drop 2).length ≤ 11)
  else true

/-! ### The transaction coordinator (`criarAgendamentoDB`) -/

/-- Argument object of `criarAgendamentoDB` (already shaped; the zod length
checks are applied by `zodFirstIssue`).  The source carries `slotId` as a
decimal string converted with `Number`; the numeric id is kept directly. -/
structure BookingPayload where
  nome : String
  cpf : String
  nascimento : String
  especialidade : String
  regiao : String
  telefone : String
  email : String
  motivo : Option String
  dataISO : String
  slotId : Option Nat
  medicoId : Option String
deriving DecidableEq, Repr

/-- Result object of the external `normalizeDateTimeToUTC` LLM normalizer:
an optional UTC instant, whether an explicit time was present, and the
local civil day (unused by the booking flow). -/
structure DateNorm where
  isoUTC : Option Int
  hasTime : Bool
  ymdLocal : Int
deriving DecidableEq, Repr

/-- Outcome of the `appointments` insert: success, a returned store error
(the `if (error)` branch), or a thrown exception (the `catch` branch). -/
inductive InsertOutcome where
  | ok
  | dbError
  | thrown
deriving DecidableEq, Repr

/-- External inputs of one `criarAgendamentoDB` run: the zod `email()`
library check, the two LLM normalizers, the insert outcome, and the row id
the store would assign to a successful insert. -/
structure BookEnv where
  zodEmailOk : Bool
  birthNorm : Option String
  dateNorm : Option DateNorm
  insertOutcome : InsertOutcome
  freshApptId : Nat
deriving DecidableEq, Repr

/-- Result of `criarAgendamentoDB`: `ok:true` with the created id, or
`ok:false` with the user-facing message. -/
inductive BookResult where
  | ok (id : Nat)
  | fail (message : String)
deriving DecidableEq, Repr

/-- Message of the first failing zod check of the booking schema, in schema
field order, `none` when the payload parses.  String lengths count code
points; the `email()` format check is third-party zod code and enters as
the `zodEmailOk` input. -/
def zodFirstIssue (zodEmailOk : Bool) (p : BookingPayload) : Option String :=
  if p.nome.toList.length < 3 then some "Informe o nome completo"
  else if p.cpf.toList.length < 11 then some "CPF obrigatório"
  else if p.nascimento.toList.length < 6 then some "Data de nascimento obrigatória"
  else if p.especialidade.toList.length < 2 then some "Especialidade obrigatória"
  else if p.regiao.toList.length < 2 then some "Região obrigatória"
  else if p.telefone.toList.length < 8 then some "Telefone obrigatório"
  else if ¬ zodEmailOk then some "E-mail inválido"
  else if (match p.motivo with | some m => decide (500 < m.toList.length) | none => false) then
    some "String must contain at most 500 character(s)"
  else if p.dataISO.toList.length < 5 then some "Data/hora da consulta obrigatória"
  else none

/-- Compensating update of the booking flow: `agendado → livre` on the
reserved slot id, conditional on the status still being `agendado`. -/
def rollbackSlot (db : DB) (sid : Nat) : DB :=
  { db with slots := (condUpdateSlots db.slots
      (fun s => s.id == sid && s.status == "agendado") "livre").2 }

/-- Embedding of `criarAgendamentoDB`: schema parse, CPF checksum,
birthdate normalization, e-mail, phone, desired date-time normalization
(an explicit time is required), slot reservation, appointment insert, and
the compensating slot update when the insert returns an error or throws.
A `ZodError` is thrown before any reservation, so the `catch` rollback
guard `reservedSlot?.id` only fires for post-reservation exceptions,
modelled by `InsertOutcome.thrown`. -/
def criarAgendamento (env : BookEnv) (db : DB) (p : BookingPayload) :
    BookResult × DB :=
  match zodFirstIssue env.zodEmailOk p with
  | some msg => (.fail msg, db)
  | none =>
    let cpfNum := String.mk (p.cpf.toList.filter (fun c => c.isDigit))
    if ¬ isValidCPF cpfNum then
      (.fail "CPF inválido. Verifique e envie novamente.", db)
    else match env.birthNorm with
    | none => (.fail "Data de nascimento inválida. Use, por exemplo, 31/01/1990.", db)
    | some birthISO =>
      let emailNorm := jsLower (jsTrim p.email)
      if ¬ isValidEmail emailNorm then
        (.fail "E-mail inválido. Verifique e envie novamente.", db)
      else
        let waPhone := normalizeWhatsNumber p.telefone
        if ¬ isValidWhatsNumber waPhone then
          (.fail "Telefone inválido. Envie com DDD + número (ex.: 11 91234-5678). O DDI (55) é assumido automaticamente.", db)
        else match env.dateNorm with
        | none => (.fail "Data/hora da consulta inválida. Use 25/08/2025 18:00 ou 25 de agosto de 2025 às 18:00.", db)
        | some norm =>
          if norm.hasTime = false ∨ norm.isoUTC = none then
            (.fail "Para confirmar o agendamento, preciso da HORA (ex.: 14:00). Pode me informar?", db)
          else
            match reservarSlot db p.slotId (norm.isoUTC.getD 0) p.medicoId with
            | (.fail msg, db1) => (.fail msg, db1)
            | (.ok reservedSlot, db1) =>
              match env.insertOutcome with
              | .ok =>
                  let row : Appointment :=
                    { id := env.freshApptId, name := p.nome, cpf := cpfNum,
                      birthdate := birthISO, specialty := p.especialidade,
                      region := p.regiao, phone := waPhone, email := emailNorm,
                      reason := p.motivo, datetime := reservedSlot.datetime,
                      consent := true, status := "pendente", source := "chatbot",
                      slot_id := some reservedSlot.id,
                      medico_id := some reservedSlot.medico_id }
                  (.ok env.freshApptId,
                    { db1 with appointments := db1.appointments ++ [row] })
              | .dbError =>
                  (.fail "Erro ao salvar o agendamento.", rollbackSlot db1 reservedSlot.id)
              | .thrown =>
                  (.fail "Erro inesperado ao agendar.", rollbackSlot db1 reservedSlot.id)

/-! ### Inversion lemmas for the reservation step -/

theorem maybeSingle_eq_ok_some {α : Type} (l : List α) (a : α)
    (h : maybeSingle l = .ok (some a)) : l = [a] := by
  match l with
  | [] => simp [maybeSingle] at h
  | [b] =>
      simp only [maybeSingle, Except.ok.injEq, Option.some.injEq] at h
      rw [h]
  | b :: c :: t => simp [maybeSingle] at h

theorem single_eq_ok {α : Type} (l : List α) (a : α)
    (h : single l = .ok a) : l = [a] := by
  match l with
  | [] => simp [single] at h
  | [b] =>
      simp only [single, Except.ok.injEq] at h
      rw [h]
  | b :: c :: t => simp [single] at h

theorem condUpdate_rows_singleton (slots : List Slot) (p : Slot → Bool)
    (st : String) (a : Slot) (h : (condUpdateSlots slots p st).1 = [a]) :
    ∃ s0, slots.filter p = [s0] ∧ a = setStatus st s0 ∧ s0 ∈ slots ∧ p s0 = true := by
  simp only [condUpdateSlots] at h
  match hf : slots.filter p with
  | [] => rw [hf] at h; simp at h
  | [s0] =>
      rw [hf] at h
      simp only [List.map_cons, List.map_nil, List.cons.injEq, and_true] at h
      have hs0 := List.mem_filter.mp (hf ▸ List.mem_singleton_self s0)
      exact ⟨s0, rfl, h.symm, hs0.1, hs0.2⟩
  | s0 :: s1 :: t => rw [hf] at h; simp at h

/-- With pairwise-distinct slot ids at most one row matches the reserve
condition. -/
theorem reserve_filter_short (slots : List Slot) (cid : Nat)
    (hnd : (slots.map Slot.id).Nodup) :
    (slots.filter (fun s => s.id == cid && s.status == "livre")).length ≤ 1 := by
  match hfe : slots.filter (fun s => s.id == cid && s.status == "livre") with
  | [] => rw [hfe]; simp
  | [x] => rw [hfe]; simp
  | x :: y :: t =>
      exfalso
      have hx := List.mem_filter.mp (hfe ▸ (List.mem_cons_self x (y :: t)))
      have hy := List.mem_filter.mp
        (hfe ▸ (List.mem_cons_of_mem x (List.mem_cons_self y t)))
      have hxid : x.id = cid := by
        have := hx.2
        simp only [Bool.and_eq_true, beq_iff_eq] at this
        exact this.1
      have hyid : y.id = cid := by
        have := hy.2
        simp only [Bool.and_eq_true, beq_iff_eq] at this
        exact this.1
      have hxy : x = y := List.inj_on_of_nodup_map hnd hx.1 hy.1 (by rw [hxid, hyid])
      have hndf : (slots.filter (fun s => s.id == cid && s.status == "livre")).Nodup :=
        List.Nodup.filter _ (List.Nodup.of_map _ hnd)
      rw [hfe] at hndf
      rcases List.nodup_cons.mp hndf with ⟨hnx, _⟩
      exact hnx (hxy ▸ List.mem_cons_self y t)

theorem reservarSemId_of_take_nil (db : DB) (isoUTC : Int) (medicoId : Option String)
    (htk : (sortByIdAsc (db.slots.filter (slotMatches isoUTC medicoId))).take
      (if medicoId.isSome then 1 else 2) = []) :
    reservarSemId db isoUTC medicoId = (.fail "Horário indisponível.", db) := by
  unfold reservarSemId
  rw [htk]

theorem reservarSemId_of_take_amb (db : DB) (isoUTC : Int) (medicoId : Option String)
    (c : Slot) (rest : List Slot)
    (htk : (sortByIdAsc (db.slots.filter (slotMatches isoUTC medicoId))).take
      (if medicoId.isSome then 1 else 2) = c :: rest)
    (hamb : (medicoId.isNone && !rest.isEmpty) = true) :
    reservarSemId db isoUTC medicoId = (.fail ambiguousSlotMsg, db) := by
  unfold reservarSemId
  rw [htk]
  show (if (medicoId.isNone && !rest.isEmpty) = true then (ReserveResult.fail ambiguousSlotMsg, db)
    else tryLock db c) = (ReserveResult.fail ambiguousSlotMsg, db)
  rw [if_pos hamb]

theorem reservarSemId_of_take_go (db : DB) (isoUTC : Int) (medicoId : Option String)
    (c : Slot) (rest : List Slot)
    (htk : (sortByIdAsc (db.slots.filter (slotMatches isoUTC medicoId))).take
      (if medicoId.isSome then 1 else 2) = c :: rest)
    (hamb : ¬ (medicoId.isNone && !rest.isEmpty) = true) :
    reservarSemId db isoUTC medicoId = tryLock db c := by
  unfold reservarSemId
  rw [htk]
  show (if (medicoId.isNone && !rest.isEmpty) = true then (ReserveResult.fail ambiguousSlotMsg, db)
    else tryLock db c) = tryLock db c
  rw [if_neg hamb]

/-- A candidate produced by the take-at-most-two read is a free slot of the
store matching the query. -/
theorem take_candidate_mem (db : DB) (isoUTC : Int) (medicoId : Option String)
    (c : Slot) (rest : List Slot)
    (htk : (sortByIdAsc (db.slots.filter (slotMatches isoUTC medicoId))).take
      (if medicoId.isSome then 1 else 2) = c :: rest) :
    c ∈ db.slots ∧ c.status = "livre" := by
  have h1 : c ∈ (sortByIdAsc (db.slots.filter
      (slotMatches isoUTC medicoId))).take (if medicoId.isSome then 1 else 2) := by
    rw [htk]; exact List.mem_cons_self _ _
  have h2 := List.take_subset _ _ h1
  have h3 := ((List.perm_insertionSort _ _).mem_iff).mp h2
  have h4 := List.mem_filter.mp h3
  refine ⟨h4.1, ?_⟩
  have hm := h4.2
  simp only [slotMatches, Bool.and_eq_true, beq_iff_eq] at hm
  exact hm.1.2

/-- A failed `_reservarSlot` call leaves the slot table unchanged (up to
extensional equality of the conditional no-op update) and never touches
the other tables. -/
theorem reservarSlot_fail_state (db : DB) (slotId : Option Nat) (isoUTC : Int)
    (medicoId : Option String) (hnd : (db.slots.map Slot.id).Nodup) (msg : String)
    (h : (reservarSlot db slotId isoUTC medicoId).1 = .fail msg) :
    (reservarSlot db slotId isoUTC medicoId).2.slots = db.slots ∧
    (reservarSlot db slotId isoUTC medicoId).2.appointments = db.appointments ∧
    (reservarSlot db slotId isoUTC medicoId).2.medicos = db.medicos := by
  match slotId with
  | some idNum =>
      have hshort := reserve_filter_short db.slots idNum hnd
      cases hms : maybeSingle (condUpdateSlots db.slots
          (fun s => s.id == idNum && s.status == "livre") "agendado").1 with
      | error e =>
          exfalso
          have hlen : 2 ≤ (condUpdateSlots db.slots
              (fun s => s.id == idNum && s.status == "livre") "agendado").1.length := by
            match hl : (condUpdateSlots db.slots
                (fun s => s.id == idNum && s.status == "livre") "agendado").1 with
            | [] => rw [hl] at hms; simp [maybeSingle] at hms
            | [a] => rw [hl] at hms; simp [maybeSingle] at hms
            | a :: b :: t => simp
          have heq : (condUpdateSlots db.slots
              (fun s => s.id == idNum && s.status == "livre") "agendado").1.length =
              (db.slots.filter (fun s => s.id == idNum && s.status == "livre")).length := by
            simp [condUpdateSlots]
          omega
      | ok o =>
          cases o with
          | some upd =>
              exfalso
              simp only [reservarSlot] at h
              rw [hms] at h
              exact ReserveResult.noConfusion h
          | none =>
              have hfil : db.slots.filter
                  (fun s => s.id == idNum && s.status == "livre") = [] := by
                have hrows : (condUpdateSlots db.slots
                    (fun s => s.id == idNum && s.status == "livre") "agendado").1 = [] := by
                  match hl : (condUpdateSlots db.slots
                      (fun s => s.id == idNum && s.status == "livre") "agendado").1 with
                  | [] => rfl
                  | [a] => rw [hl] at hms; simp [maybeSingle] at hms
                  | a :: b :: t => rw [hl] at hms; simp [maybeSingle] at hms
                simpa [condUpdateSlots] using hrows
              have hnom : ∀ x ∈ db.slots,
                  (fun s => s.id == idNum && s.status == "livre") x = false :=
                fun x hx => by
                  have := List.filter_eq_nil_iff.mp hfil x hx
                  simpa using this
              obtain ⟨_, h2⟩ := condUpdateSlots_id_of_no_match db.slots _ "agendado" hnom
              exact ⟨h2, rfl, rfl⟩
  | none =>
      have hrw : reservarSlot db none isoUTC medicoId = reservarSemId db isoUTC medicoId := rfl
      rcases htk : (sortByIdAsc (db.slots.filter (slotMatches isoUTC medicoId))).take
          (if medicoId.isSome then 1 else 2) with _ | ⟨candidate, rest⟩
      · have hr := reservarSemId_of_take_nil db isoUTC medicoId htk
        rw [hrw, hr]
        exact ⟨rfl, rfl, rfl⟩
      · by_cases hamb : (medicoId.isNone && !rest.isEmpty) = true
        · have hr := reservarSemId_of_take_amb db isoUTC medicoId candidate rest htk hamb
          rw [hrw, hr]
          exact ⟨rfl, rfl, rfl⟩
        · exfalso
          have hr := reservarSemId_of_take_go db isoUTC medicoId candidate rest htk hamb
          obtain ⟨hmem, hfree⟩ := take_candidate_mem db isoUTC medicoId candidate rest htk
          have hhit := condUpdateSlots_reserve_hit db.slots candidate.id candidate hnd
            hmem rfl hfree
          rw [hrw, hr] at h
          simp only [tryLock] at h
          rw [hhit] at h
          simp [single] at h

/-- A successful `_reservarSlot` call reserved a previously free row and
its final state is exactly the conditional update on that row's id. -/
theorem reservarSlot_ok_state (db : DB) (slotId : Option Nat) (isoUTC : Int)
    (medicoId : Option String) (hnd : (db.slots.map Slot.id).Nodup) (s : Slot)
    (h : (reservarSlot db slotId isoUTC medicoId).1 = .ok s) :
    ∃ s0, s0 ∈ db.slots ∧ s0.status = "livre" ∧ s = setStatus "agendado" s0 ∧
      (reservarSlot db slotId isoUTC medicoId).2.slots =
        (condUpdateSlots db.slots
          (fun x => x.id == s0.id && x.status == "livre") "agendado").2 ∧
      (reservarSlot db slotId isoUTC medicoId).2.appointments = db.appointments ∧
      (reservarSlot db slotId isoUTC medicoId).2.medicos = db.medicos := by
  match slotId with
  | some idNum =>
      cases hms : maybeSingle (condUpdateSlots db.slots
          (fun s => s.id == idNum && s.status == "livre") "agendado").1 with
      | error e =>
          exfalso
          simp only [reservarSlot] at h
          rw [hms] at h
          exact ReserveResult.noConfusion h
      | ok o =>
          cases o with
          | none =>
              exfalso
              simp only [reservarSlot] at h
              rw [hms] at h
              exact ReserveResult.noConfusion h
          | some upd =>
              have hupds : upd = s := by
                simp only [reservarSlot] at h
                rw [hms] at h
                injection h
              obtain ⟨s0, hfil, hupd, hmem, hp⟩ := condUpdate_rows_singleton _ _ _ _
                (maybeSingle_eq_ok_some _ _ hms)
              have hids : s0.id = idNum := by
                simp only [Bool.and_eq_true, beq_iff_eq] at hp
                exact hp.1
              have hst : s0.status = "livre" := by
                simp only [Bool.and_eq_true, beq_iff_eq] at hp
                exact hp.2
              refine ⟨s0, hmem, hst, by rw [← hupds, hupd], ?_, rfl, rfl⟩
              rw [hids]
              rfl
  | none =>
      have hrw : reservarSlot db none isoUTC medicoId = reservarSemId db isoUTC medicoId := rfl
      rcases htk : (sortByIdAsc (db.slots.filter (slotMatches isoUTC medicoId))).take
          (if medicoId.isSome then 1 else 2) with _ | ⟨candidate, rest⟩
      · exfalso
        have hr := reservarSemId_of_take_nil db isoUTC medicoId htk
        rw [hrw, hr] at h
        exact ReserveResult.noConfusion h
      · by_cases hamb : (medicoId.isNone && !rest.isEmpty) = true
        · exfalso
          have hr := reservarSemId_of_take_amb db isoUTC medicoId candidate rest htk hamb
          rw [hrw, hr] at h
          exact ReserveResult.noConfusion h
        · have hr := reservarSemId_of_take_go db isoUTC medicoId candidate rest htk hamb
          obtain ⟨hmem, hfree⟩ := take_candidate_mem db isoUTC medicoId candidate rest htk
          have hhit := condUpdateSlots_reserve_hit db.slots candidate.id candidate hnd
            hmem rfl hfree
          rw [hrw, hr] at h ⊢
          simp only [tryLock] at h
          rw [hhit] at h
          have hs : setStatus "agendado" candidate = s := by injection h
          exact ⟨candidate, hmem, hfree, hs.symm, rfl, rfl, rfl⟩

/-- The reserve-then-rollback composition restores the slot table when the
reserved row was the unique free row of its id. -/
theorem reserve_then_rollback (slots : List Slot) (cid : Nat)
    (hfree : ∀ x ∈ slots, x.id = cid → x.status = "livre") :
    (condUpdateSlots (condUpdateSlots slots
        (fun s => s.id == cid && s.status == "livre") "agendado").2
      (fun s => s.id == cid && s.status == "agendado") "livre").2 = slots := by
  simp only [condUpdateSlots, List.map_map]
  apply map_eq_self_of
  intro x hx
  by_cases h1 : x.id = cid
  · have hst := hfree x hx h1
    cases x with
    | mk i mid dt dur st => simp_all [Function.comp, setStatus]
  · simp [Function.comp, h1]

/-! ### C5 — booking requires an explicit time -/

/-- Claim C5.  When the desired-date normalization yields no result, no
explicit time, or no UTC instant, `criarAgendamentoDB` fails with
`ok:false` and the whole store — slots and appointments — is exactly as
before the call: the failure happens before any reservation is attempted. -/
theorem c5_booking_requires_time (env : BookEnv) (db : DB) (p : BookingPayload)
    (h : env.dateNorm = none ∨
      ∃ d, env.dateNorm = some d ∧ (d.hasTime = false ∨ d.isoUTC = none)) :
    ∃ msg, criarAgendamento env db p = (.fail msg, db) := by
  unfold criarAgendamento
  repeat' split
  all_goals try exact ⟨_, rfl⟩
  all_goals try (rcases h with h1 | ⟨d, hd, hor⟩ <;> simp_all)
  all_goals repeat' split
  all_goals exact ⟨_, rfl⟩

/-- Witness for C5: a normalization with a civil day but no explicit time
makes a concrete booking fail with the store untouched. -/
theorem c5_booking_requires_time_witness :
    ∃ msg, criarAgendamento
      ⟨true, some "1990-01-31", some ⟨none, false, 20000⟩, .ok, 1⟩
      ⟨[⟨7, "m1", 100, some 30, "livre"⟩], [], []⟩
      ⟨"Ana Maria", "52998224725", "31/01/1990", "cardiologia", "centro",
        "11912345678", "ana@mail.com", none, "04/09/2025", none, none⟩ =
      (.fail msg, ⟨[⟨7, "m1", 100, some 30, "livre"⟩], [], []⟩) :=
  c5_booking_requires_time
    ⟨true, some "1990-01-31", some ⟨none, false, 20000⟩, .ok, 1⟩
    ⟨[⟨7, "m1", 100, some 30, "livre"⟩], [], []⟩
    ⟨"Ana Maria", "52998224725", "31/01/1990", "cardiologia", "centro",
      "11912345678", "ana@mail.com", none, "04/09/2025", none, none⟩
    (Or.inr ⟨⟨none, false, 20000⟩, rfl, Or.inl rfl⟩)

/-! ### C2 — compensating rollback on insert failure -/

/-- Claim C2.  Whenever the `appointments` insert does not succeed — a
returned store error or a thrown exception — every booking call fails and
leaves the slot and appointment tables exactly as before the call: if a
slot had been reserved, the compensating `agendado → livre` update restored
it before the failure was reported. -/
theorem c2_rollback_on_insert_failure (env : BookEnv) (db : DB) (p : BookingPayload)
    (hnd : (db.slots.map Slot.id).Nodup) (hins : env.insertOutcome ≠ .ok) :
    (∃ msg, (criarAgendamento env db p).1 = .fail msg) ∧
    (criarAgendamento env db p).2.slots = db.slots ∧
    (criarAgendamento env db p).2.appointments = db.appointments := by
  cases hz : zodFirstIssue env.zodEmailOk p with
  | some msg =>
      have hr : criarAgendamento env db p = (.fail msg, db) := by
        simp [criarAgendamento, hz]
      rw [hr]
      exact ⟨⟨msg, rfl⟩, rfl, rfl⟩
  | none =>
      by_cases hcpf : isValidCPF (String.mk (List.filter (fun c => c.isDigit) p.cpf.data)) = true
      case neg =>
        have hr : criarAgendamento env db p =
            (.fail "CPF inválido. Verifique e envie novamente.", db) := by
          simp [criarAgendamento, hz, hcpf]
        rw [hr]
        exact ⟨⟨_, rfl⟩, rfl, rfl⟩
      case pos =>
      cases hb : env.birthNorm with
      | none =>
          have hr : criarAgendamento env db p =
              (.fail "Data de nascimento inválida. Use, por exemplo, 31/01/1990.", db) := by
            simp [criarAgendamento, hz, hcpf, hb]
          rw [hr]
          exact ⟨⟨_, rfl⟩, rfl, rfl⟩
      | some birthISO =>
      by_cases he : isValidEmail (jsLower (jsTrim p.email)) = true
      case neg =>
        have hr : criarAgendamento env db p =
            (.fail "E-mail inválido. Verifique e envie novamente.", db) := by
          simp [criarAgendamento, hz, hcpf, hb, he]
        rw [hr]
        exact ⟨⟨_, rfl⟩, rfl, rfl⟩
      case pos =>
      by_cases hph : isValidWhatsNumber (normalizeWhatsNumber p.telefone) = true
      case neg =>
        have hr : criarAgendamento env db p =
            (.fail "Telefone inválido. Envie com DDD + número (ex.: 11 91234-5678). O DDI (55) é assumido automaticamente.", db) := by
          simp [criarAgendamento, hz, hcpf, hb, he, hph]
        rw [hr]
        exact ⟨⟨_, rfl⟩, rfl, rfl⟩
      case pos =>
      cases hd : env.dateNorm with
      | none =>
          have hr : criarAgendamento env db p =
              (.fail "Data/hora da consulta inválida. Use 25/08/2025 18:00 ou 25 de agosto de 2025 às 18:00.", db) := by
            simp [criarAgendamento, hz, hcpf, hb, he, hph, hd]
          rw [hr]
          exact ⟨⟨_, rfl⟩, rfl, rfl⟩
      | some norm =>
      by_cases htime : norm.hasTime = false ∨ norm.isoUTC = none
      case pos =>
        have hr : criarAgendamento env db p =
            (.fail "Para confirmar o agendamento, preciso da HORA (ex.: 14:00). Pode me informar?", db) := by
          simp [criarAgendamento, hz, hcpf, hb, he, hph, hd, htime]
        rw [hr]
        exact ⟨⟨_, rfl⟩, rfl, rfl⟩
      case neg =>
      rcases hres : reservarSlot db p.slotId (norm.isoUTC.getD 0) p.medicoId with ⟨r1, db1⟩
      cases r1 with
      | fail msg =>
          have hr : criarAgendamento env db p = (.fail msg, db1) := by
            simp [criarAgendamento, hz, hcpf, hb, he, hph, hd, htime, hres]
          have hf := reservarSlot_fail_state db p.slotId (norm.isoUTC.getD 0) p.medicoId
            hnd msg (by rw [hres])
          rw [hres] at hf
          rw [hr]
          exact ⟨⟨msg, rfl⟩, hf.1, hf.2.1⟩
      | ok reservedSlot =>
          obtain ⟨s0, hmem, hfr, hset, hslots, happ, _⟩ :=
            reservarSlot_ok_state db p.slotId (norm.isoUTC.getD 0) p.medicoId hnd
              reservedSlot (by rw [hres])
          rw [hres] at hslots happ
          have hfree : ∀ x ∈ db.slots, x.id = s0.id → x.status = "livre" := by
            intro x hx hxid
            have hxs0 : x = s0 := List.inj_on_of_nodup_map hnd hx hmem (by rw [hxid])
            rw [hxs0]
            exact hfr
          have hrid : reservedSlot.id = s0.id := by rw [hset]; rfl
          have hroll : (rollbackSlot db1 reservedSlot.id).slots = db.slots := by
            simp only [rollbackSlot]
            rw [hrid, show db1.slots = (condUpdateSlots db.slots
              (fun x => x.id == s0.id && x.status == "livre") "agendado").2 from hslots]
            exact reserve_then_rollback db.slots s0.id hfree
          have happ2 : (rollbackSlot db1 reservedSlot.id).appointments = db.appointments := by
            simpa [rollbackSlot] using happ
          cases hio : env.insertOutcome with
          | ok => exact absurd hio hins
          | dbError =>
              have hr : criarAgendamento env db p =
                  (.fail "Erro ao salvar o agendamento.", rollbackSlot db1 reservedSlot.id) := by
                simp [criarAgendamento, hz, hcpf, hb, he, hph, hd, htime, hres, hio]
              rw [hr]
              exact ⟨⟨_, rfl⟩, hroll, happ2⟩
          | thrown =>
              have hr : criarAgendamento env db p =
                  (.fail "Erro inesperado ao agendar.", rollbackSlot db1 reservedSlot.id) := by
                simp [criarAgendamento, hz, hcpf, hb, he, hph, hd, htime, hres, hio]
              rw [hr]
              exact ⟨⟨_, rfl⟩, hroll, happ2⟩

/-- Witness for C2: a concrete booking against a one-slot store with a
failing insert ends with a failure and the original tables. -/
theorem c2_rollback_on_insert_failure_witness :
    (∃ msg, (criarAgendamento
      ⟨true, some "1990-01-31", some ⟨some 100, true, 20000⟩, .dbError, 1⟩
      ⟨[⟨7, "m1", 100, some 30, "livre"⟩], [], []⟩
      ⟨"Ana Maria", "52998224725", "31/01/1990", "cardiologia", "centro",
        "11912345678", "ana@mail.com", none, "04/09/2025 19:05", some 7, none⟩).1 =
      .fail msg) ∧
    (criarAgendamento
      ⟨true, some "1990-01-31", some ⟨some 100, true, 20000⟩, .dbError, 1⟩
      ⟨[⟨7, "m1", 100, some 30, "livre"⟩], [], []⟩
      ⟨"Ana Maria", "52998224725", "31/01/1990", "cardiologia", "centro",
        "11912345678", "ana@mail.com", none, "04/09/2025 19:05", some 7, none⟩).2.slots =
      [⟨7, "m1", 100, some 30, "livre"⟩] ∧
    (criarAgendamento
      ⟨true, some "1990-01-31", some ⟨some 100, true, 20000⟩, .dbError, 1⟩
      ⟨[⟨7, "m1", 100, some 30, "livre"⟩], [], []⟩
      ⟨"Ana Maria", "52998224725", "31/01/1990", "cardiologia", "centro",
        "11912345678", "ana@mail.com", none, "04/09/2025 19:05", some 7, none⟩).2.appointments =
      [] :=
  c2_rollback_on_insert_failure
    ⟨true, some "1990-01-31", some ⟨some 100, true, 20000⟩, .dbError, 1⟩
    ⟨[⟨7, "m1", 100, some 30, "livre"⟩], [], []⟩
    ⟨"Ana Maria", "52998224725", "31/01/1990", "cardiologia", "centro",
      "11912345678", "ana@mail.com", none, "04/09/2025 19:05", some 7, none⟩
    (by decide) (by decide)

/-! ### Cancellation (`desmarcarAgendamentoDB`) -/

/-- Result of `desmarcarAgendamentoDB`: `ok:true` with the appointment id
and the freed slot id (`null` when the appointment had no slot), or
`ok:false` with a message.  The locale-formatted `resumo` of the source is
presentation only and not modelled. -/
inductive CancelResult where
  | ok (id : Nat) (slotId : Option Nat)
  | fail (message : String)
deriving DecidableEq, Repr

/-- Replace the status of an appointment row. -/
def setApptStatus (st : String) (a : Appointment) : Appointment :=
  { a with status := st }

/-- Update `appointments` rows with the given id to the given status — the
`.update({ status }).eq('id', …)` of the cancellation flow. -/
def updateApptStatus (appts : List Appointment) (aid : Nat) (st : String) :
    List Appointment :=
  appts.map (fun a => if a.id == aid then setApptStatus st a else a)

/-- Unconditional slot release of the cancellation flow: set the slot with
the given id to `livre`, with no precondition on its current status. -/
def freeSlotById (slots : List Slot) (sid : Nat) : List Slot :=
  slots.map (fun s => if s.id == sid then setStatus "livre" s else s)

/-- Tail of `desmarcarAgendamentoDB` after the appointment was fetched:
mark it `cancelado` unless it already is (compared lower-cased), then
release its slot, if any, unconditionally. -/
def cancelFound (db : DB) (appt : Appointment) : CancelResult × DB :=
  let prevStatus := jsLower appt.status
  let db2 := if prevStatus ≠ "cancelado" then
      { db with appointments := updateApptStatus db.appointments appt.id "cancelado" }
    else db
  match appt.slot_id with
  | some sid => (.ok appt.id (some sid), { db2 with slots := freeSlotById db2.slots sid })
  | none => (.ok appt.id none, db2)

/-- Embedding of `desmarcarAgendamentoDB`: fetch by id with
`.maybeSingle()` (`NotFound` when absent), cancel idempotently, free the
linked slot.  Store I/O errors do not occur in this state model, so the
slot-release rollback branch is not reachable. -/
def desmarcarAgendamento (db : DB) (appointmentId : Option Nat) :
    CancelResult × DB :=
  match appointmentId with
  | none => (.fail "appointmentId é obrigatório.", db)
  | some aid =>
    match maybeSingle (db.appointments.filter (fun a => a.id == aid)) with
    | .error _ => (.fail "Erro ao buscar agendamento.", db)
    | .ok none => (.fail "Agendamento não encontrado.", db)
    | .ok (some appt) => cancelFound db appt

theorem desmarcar_found (db : DB) (aid : Nat) (a : Appointment)
    (hfil : db.appointments.filter (fun x => x.id == aid) = [a]) :
    desmarcarAgendamento db (some aid) = cancelFound db a := by
  simp only [desmarcarAgendamento]
  rw [hfil]
  rfl

theorem desmarcar_not_found (db : DB) (aid : Nat)
    (h : ∀ b ∈ db.appointments, b.id ≠ aid) :
    desmarcarAgendamento db (some aid) = (.fail "Agendamento não encontrado.", db) := by
  have hfil : db.appointments.filter (fun x => x.id == aid) = [] :=
    List.filter_eq_nil_iff.mpr (fun b hb => by simpa using h b hb)
  simp only [desmarcarAgendamento]
  rw [hfil]
  rfl

theorem cancelFound_result (db : DB) (appt : Appointment) :
    (cancelFound db appt).1 = .ok appt.id appt.slot_id := by
  match hs : appt.slot_id with
  | some sid => simp [cancelFound, hs]
  | none => simp [cancelFound, hs]

theorem cancelFound_appointments (db : DB) (appt : Appointment) :
    (cancelFound db appt).2.appointments =
      if jsLower appt.status ≠ "cancelado" then
        updateApptStatus db.appointments appt.id "cancelado"
      else db.appointments := by
  by_cases hc : jsLower appt.status ≠ "cancelado"
  · rw [if_pos hc]
    match hs : appt.slot_id with
    | some sid => simp [cancelFound, hs, hc]
    | none => simp [cancelFound, hs, hc]
  · rw [if_neg hc]
    rw [not_not] at hc
    match hs : appt.slot_id with
    | some sid => simp [cancelFound, hs, hc]
    | none => simp [cancelFound, hs, hc]

theorem cancelFound_slots (db : DB) (appt : Appointment) :
    (cancelFound db appt).2.slots =
      match appt.slot_id with
      | some sid => freeSlotById db.slots sid
      | none => db.slots := by
  by_cases hc : jsLower appt.status ≠ "cancelado"
  · match hs : appt.slot_id with
    | some sid => simp [cancelFound, hs, hc]
    | none => simp [cancelFound, hs, hc]
  · rw [not_not] at hc
    match hs : appt.slot_id with
    | some sid => simp [cancelFound, hs, hc]
    | none => simp [cancelFound, hs, hc]

theorem freeSlotById_frees (l : List Slot) (sid : Nat) :
    ∀ x ∈ freeSlotById l sid, x.id = sid → x.status = "livre" := by
  intro x hx hxid
  simp only [freeSlotById, List.mem_map] at hx
  rcases hx with ⟨y, hy, hfx⟩
  by_cases h : (y.id == sid) = true
  · rw [if_pos h] at hfx
    rw [← hfx]
    rfl
  · rw [if_neg h] at hfx
    rw [← hfx] at hxid
    simp only [beq_iff_eq] at h
    exact absurd hxid h

theorem updateApptStatus_filter_id (l : List Appointment) (aid t : Nat) (st : String) :
    (updateApptStatus l t st).filter (fun x => x.id == aid) =
      (l.filter (fun x => x.id == aid)).map
        (fun a => if a.id == t then setApptStatus st a else a) := by
  unfold updateApptStatus
  rw [List.filter_map]
  congr 1
  apply List.filter_congr
  intro x _
  by_cases h : (x.id == t) = true
  · simp [Function.comp, h, setApptStatus]
  · simp [Function.comp, h]

/-- Claim C3.  Cancellation is idempotent: with an existing appointment,
both the first and a repeated `desmarcarAgendamentoDB` return `ok:true`
with the same freed slot id; afterwards every row of that appointment id is
`cancelado` (lower-cased comparison, as the source checks), and — whatever
status the linked slot had before, with no precondition — every row of the
linked slot id is `livre` after either call.  An unknown id fails with the
not-found message and an untouched store. -/
theorem c3_cancel_idempotent (db : DB) (aid : Nat) (a : Appointment)
    (hnda : (db.appointments.map Appointment.id).Nodup)
    (hmem : a ∈ db.appointments) (hid : a.id = aid) :
    (desmarcarAgendamento db (some aid)).1 = .ok aid a.slot_id ∧
    (desmarcarAgendamento (desmarcarAgendamento db (some aid)).2 (some aid)).1 =
      .ok aid a.slot_id ∧
    (∀ x ∈ (desmarcarAgendamento db (some aid)).2.appointments,
      x.id = aid → jsLower x.status = "cancelado") ∧
    (∀ sid, a.slot_id = some sid →
      (∀ x ∈ (desmarcarAgendamento db (some aid)).2.slots,
        x.id = sid → x.status = "livre") ∧
      (∀ x ∈ (desmarcarAgendamento (desmarcarAgendamento db (some aid)).2
          (some aid)).2.slots, x.id = sid → x.status = "livre")) ∧
    (∀ aid2, (∀ b ∈ db.appointments, b.id ≠ aid2) →
      desmarcarAgendamento db (some aid2) = (.fail "Agendamento não encontrado.", db)) := by
  have hfil : db.appointments.filter (fun x => x.id == aid) = [a] := by
    refine filter_eq_singleton_of _ _ _ (hnda.of_map) hmem (by simp [hid]) ?_
    intro x hx hpx
    simp only [beq_iff_eq] at hpx
    exact List.inj_on_of_nodup_map hnda hx hmem (by rw [hpx, hid])
  have h1 := desmarcar_found db aid a hfil
  set a1 : Appointment :=
    if jsLower a.status ≠ "cancelado" then setApptStatus "cancelado" a else a with ha1
  have ha1id : a1.id = a.id := by
    rw [ha1]
    by_cases hc : jsLower a.status ≠ "cancelado"
    · rw [if_pos hc]; rfl
    · rw [if_neg hc]
  have ha1slot : a1.slot_id = a.slot_id := by
    rw [ha1]
    by_cases hc : jsLower a.status ≠ "cancelado"
    · rw [if_pos hc]; rfl
    · rw [if_neg hc]
  have ha1canc : jsLower a1.status = "cancelado" := by
    rw [ha1]
    by_cases hc : jsLower a.status ≠ "cancelado"
    · rw [if_pos hc]
      show jsLower "cancelado" = "cancelado"
      decide
    · rw [if_neg hc]
      simpa using hc
  have hfil2 : (cancelFound db a).2.appointments.filter (fun x => x.id == aid) = [a1] := by
    rw [cancelFound_appointments, ha1]
    by_cases hc : jsLower a.status ≠ "cancelado"
    · rw [if_pos hc, if_pos hc, updateApptStatus_filter_id, hfil]
      simp [hid]
    · rw [if_neg hc, if_neg hc, hfil]
  have h2 := desmarcar_found (cancelFound db a).2 aid a1 hfil2
  refine ⟨?_, ?_, ?_, ?_, ?_⟩
  · rw [h1, cancelFound_result, hid]
  · rw [h1, h2, cancelFound_result, ha1id, ha1slot, hid]
  · intro x hx hxid
    rw [h1] at hx
    rw [cancelFound_appointments] at hx
    by_cases hc : jsLower a.status ≠ "cancelado"
    · rw [if_pos hc] at hx
      simp only [updateApptStatus, List.mem_map] at hx
      rcases hx with ⟨y, hy, hfy⟩
      by_cases hyt : (y.id == a.id) = true
      · rw [if_pos hyt] at hfy
        rw [← hfy]
        show jsLower "cancelado" = "cancelado"
        decide
      · rw [if_neg hyt] at hfy
        rw [← hfy] at hxid
        simp only [beq_iff_eq] at hyt
        exact absurd (hxid.trans hid.symm) hyt
    · rw [if_neg hc] at hx
      have hxa : x = a := List.inj_on_of_nodup_map hnda hx hmem (by rw [hxid, hid])
      rw [hxa]
      simpa using hc
  · intro sid hsid
    constructor
    · intro x hx hxid
      rw [h1, cancelFound_slots, hsid] at hx
      exact freeSlotById_frees _ sid x hx hxid
    · intro x hx hxid
      rw [h1, h2, cancelFound_slots, ha1slot, hsid] at hx
      exact freeSlotById_frees _ sid x hx hxid
  · intro aid2 hnone
    exact desmarcar_not_found db aid2 hnone

/-- Concrete appointment row used by the C3 witness. -/
def c3appt : Appointment :=
  ⟨1, "Ana Maria", "52998224725", "1990-01-31", "cardiologia", "centro",
    "5511912345678", "ana@mail.com", none, 100, true, "pendente", "chatbot",
    some 7, some "m1"⟩

/-- Concrete store used by the C3 witness: the appointment of `c3appt` with
its reserved slot. -/
def c3db : DB :=
  ⟨[⟨7, "m1", 100, some 30, "agendado"⟩], [c3appt], [⟨"m1", "Dra. Ana"⟩]⟩

/-- Witness for C3: a concrete store with one pending appointment holding a
reserved slot — both cancellations succeed, the appointment ends
`cancelado`, the slot ends `livre`, and an unknown id yields not-found. -/
theorem c3_cancel_idempotent_witness :
    (desmarcarAgendamento c3db (some 1)).1 = .ok 1 (c3appt).slot_id ∧
    (desmarcarAgendamento (desmarcarAgendamento c3db (some 1)).2 (some 1)).1 =
      .ok 1 (c3appt).slot_id ∧
    (∀ x ∈ (desmarcarAgendamento c3db (some 1)).2.appointments,
      x.id = 1 → jsLower x.status = "cancelado") ∧
    (∀ sid, (c3appt).slot_id = some sid →
      (∀ x ∈ (desmarcarAgendamento c3db (some 1)).2.slots,
        x.id = sid → x.status = "livre") ∧
      (∀ x ∈ (desmarcarAgendamento (desmarcarAgendamento c3db (some 1)).2
          (some 1)).2.slots, x.id = sid → x.status = "livre")) ∧
    (∀ aid2, (∀ b ∈ c3db.appointments, b.id ≠ aid2) →
      desmarcarAgendamento c3db (some aid2) =
        (.fail "Agendamento não encontrado.", c3db)) :=
  c3_cancel_idempotent c3db 1 c3appt (by decide) (by decide) rfl

/-! ### Specialty listing (`listarEspecialidadesDB`) -/

/-- Code-point lexicographic order on character lists: the model of the
store's `order('nome', { ascending: true })` collation. -/
def lexLe : List Char → List Char → Bool
  | [], _ => true
  | _ :: _, [] => false
  | a :: as, b :: bs =>
      if a.toNat < b.toNat then true
      else if b.toNat < a.toNat then false
      else lexLe as bs

theorem lexLe_total : ∀ x y : List Char, lexLe x y = true ∨ lexLe y x = true := by
  intro x
  induction x with
  | nil => intro y; left; rfl
  | cons a as ih =>
      intro y
      cases y with
      | nil => right; rfl
      | cons b bs =>
          simp only [lexLe]
          rcases Nat.lt_trichotomy a.toNat b.toNat with h | h | h
          · left; rw [if_pos h]
          · rw [if_neg (by omega), if_neg (by omega), if_neg (by omega), if_neg (by omega)]
            exact ih bs
          · right; rw [if_pos h]

theorem lexLe_trans : ∀ x y z : List Char,
    lexLe x y = true → lexLe y z = true → lexLe x z = true := by
  intro x
  induction x with
  | nil => intro y z _ _; rfl
  | cons a as ih =>
      intro y z hxy hyz
      cases y with
      | nil => simp [lexLe] at hxy
      | cons b bs =>
          cases z with
          | nil => simp [lexLe] at hyz
          | cons c cs =>
              simp only [lexLe] at hxy hyz ⊢
              rcases Nat.lt_trichotomy a.toNat b.toNat with h1 | h1 | h1 <;>
                rcases Nat.lt_trichotomy b.toNat c.toNat with h2 | h2 | h2
              all_goals first
                | (rw [if_pos (by omega)])
                | (rw [if_neg (by omega), if_neg (by omega)]
                   rw [if_neg (by omega), if_neg (by omega)] at hxy hyz
                   exact ih bs cs hxy hyz)
                | (exfalso
                   first
                     | (rw [if_neg (by omega), if_pos (by omega)] at hxy
                        exact Bool.false_ne_true hxy)
                     | (rw [if_neg (by omega), if_pos (by omega)] at hyz
                        exact Bool.false_ne_true hyz))

/-- The sort relation used for the specialty listing. -/
def espLe (a b : Especialidade) : Prop := lexLe a.nome.toList b.nome.toList = true

instance : DecidableRel espLe := fun a b => by unfold espLe; infer_instance

instance : IsTotal Especialidade espLe := ⟨fun a b => lexLe_total _ _⟩

instance : IsTrans Especialidade espLe := ⟨fun a b c => lexLe_trans _ _ _⟩

/-- The `order('nome', { ascending: true })` of the specialty query. -/
def sortEspByNome (l : List Especialidade) : List Especialidade :=
  List.insertionSort espLe l

/-- First-occurrence de-duplication with an accumulator of already-seen
elements — `Array.from(new Set(lista))`. -/
def jsDedupAux (seen : List String) : List String → List String
  | [] => []
  | x :: xs =>
      if seen.contains x then jsDedupAux seen xs
      else x :: jsDedupAux (x :: seen) xs

/-- Result of `listarEspecialidadesDB`. -/
inductive EspResult where
  | ok (especialidades : List String)
  | fail (message : String)
deriving DecidableEq, Repr

/-- Embedding of `listarEspecialidadesDB`: read the names ordered
ascending, trim each, drop blanks, de-duplicate keeping first occurrences,
and fail with a message when nothing remains. -/
def listarEspecialidades (catalog : List Especialidade) : EspResult :=
  let lista := ((sortEspByNome catalog).map (fun r => jsTrim r.nome)).filter
    (fun s => s ≠ "")
  let uniq := jsDedupAux [] lista
  if uniq.isEmpty then .fail "Nenhuma especialidade cadastrada."
  else .ok uniq

theorem jsDedupAux_sublist (seen : List String) (l : List String) :
    (jsDedupAux seen l).Sublist l := by
  induction l generalizing seen with
  | nil => exact List.Sublist.refl []
  | cons x xs ih =>
      simp only [jsDedupAux]
      by_cases h : seen.contains x = true
      · rw [if_pos h]
        exact (ih seen).cons x
      · rw [if_neg h]
        exact (ih (x :: seen)).cons₂ x

theorem jsDedupAux_mem (seen : List String) (l : List String) (x : String) :
    x ∈ jsDedupAux seen l ↔ x ∈ l ∧ x ∉ seen := by
  induction l generalizing seen with
  | nil => simp [jsDedupAux]
  | cons y ys ih =>
      simp only [jsDedupAux]
      by_cases h : seen.contains y = true
      · rw [if_pos h]
        rw [ih seen]
        have hy : y ∈ seen := List.mem_of_elem_eq_true h
        constructor
        · rintro ⟨hx, hns⟩
          exact ⟨List.mem_cons_of_mem _ hx, hns⟩
        · rintro ⟨hx, hns⟩
          rcases List.mem_cons.mp hx with rfl | hx2
          · exact absurd hy hns
          · exact ⟨hx2, hns⟩
      · rw [if_neg h]
        have hy : y ∉ seen := by
          intro hmem
          exact h (List.elem_eq_true_of_mem hmem)
        constructor
        · intro hx
          rcases List.mem_cons.mp hx with rfl | hx2
          · exact ⟨List.mem_cons_self _ _, hy⟩
          · rcases (ih (y :: seen)).mp hx2 with ⟨h1, h2⟩
            refine ⟨List.mem_cons_of_mem _ h1, ?_⟩
            intro hs
            exact h2 (List.mem_cons_of_mem _ hs)
        · rintro ⟨hx, hns⟩
          rcases List.mem_cons.mp hx with rfl | hx2
          · exact List.mem_cons_self _ _
          · by_cases hxy : x = y
            · subst hxy
              exact List.mem_cons_self _ _
            · refine List.mem_cons_of_mem _ ((ih (y :: seen)).mpr ⟨hx2, ?_⟩)
              intro hs
              rcases List.mem_cons.mp hs with h1 | h2
              · exact hxy h1
              · exact hns h2

theorem jsDedupAux_nodup (seen : List String) (l : List String) :
    (jsDedupAux seen l).Nodup := by
  induction l generalizing seen with
  | nil => exact List.nodup_nil
  | cons y ys ih =>
      simp only [jsDedupAux]
      by_cases h : seen.contains y = true
      · rw [if_pos h]
        exact ih seen
      · rw [if_neg h]
        refine List.nodup_cons.mpr ⟨?_, ih (y :: seen)⟩
        intro hmem
        exact ((jsDedupAux_mem (y :: seen) ys y).mp hmem).2 (List.mem_cons_self _ _)

/-! ### C10 — specialty listing behaviour -/

/-- Counterexample to claim C10 as stated.  A non-empty catalog whose only
name is blank yields `ok:false`, not a list; and a catalog whose stored
names carry leading whitespace yields a list that is not in ascending
order (`"b"` before `"a"`). -/
theorem c10_counterexample :
    listarEspecialidades [⟨1, " "⟩] = .fail "Nenhuma especialidade cadastrada." ∧
    listarEspecialidades [⟨1, " b"⟩, ⟨2, "a"⟩] = .ok ["b", "a"] ∧
    lexLe "b".toList "a".toList = false := by
  decide

/-- Claim C10 as amended.  `listarEspecialidadesDB` fails with a message
exactly when every stored name trims to blank (in particular for an empty
catalog); otherwise it returns `ok` with a non-empty list holding exactly
the distinct non-blank trimmed names — each exactly once — and the list is
ascending (in the modelled code-point collation of the `order by nome`)
whenever the stored names carry no surrounding whitespace. -/
theorem c10_list_specialties (catalog : List Especialidade) :
    ((∀ r ∈ catalog, jsTrim r.nome = "") →
      listarEspecialidades catalog = .fail "Nenhuma especialidade cadastrada.") ∧
    ((∃ r ∈ catalog, jsTrim r.nome ≠ "") →
      ∃ l, listarEspecialidades catalog = .ok l ∧ l ≠ [] ∧ l.Nodup ∧
        (∀ x, x ∈ l ↔ (x ≠ "" ∧ ∃ r ∈ catalog, jsTrim r.nome = x)) ∧
        ((∀ r ∈ catalog, jsTrim r.nome = r.nome) →
          l.Sorted (fun x y => lexLe x.toList y.toList = true))) := by
  have hperm := List.perm_insertionSort espLe catalog
  have hmemlista : ∀ x,
      x ∈ ((sortEspByNome catalog).map (fun r => jsTrim r.nome)).filter
        (fun s => s ≠ "") ↔ (x ≠ "" ∧ ∃ r ∈ catalog, jsTrim r.nome = x) := by
    intro x
    rw [List.mem_filter]
    constructor
    · rintro ⟨hmap, hne⟩
      rcases List.mem_map.mp hmap with ⟨r, hr, hrx⟩
      exact ⟨by simpa using hne, r, hperm.mem_iff.mp hr, hrx⟩
    · rintro ⟨hne, r, hr, hrx⟩
      refine ⟨List.mem_map.mpr ⟨r, hperm.mem_iff.mpr hr, hrx⟩, by simpa using hne⟩
  constructor
  · intro hall
    have hnil : ((sortEspByNome catalog).map (fun r => jsTrim r.nome)).filter
        (fun s => s ≠ "") = [] := by
      refine List.filter_eq_nil_iff.mpr ?_
      intro a ha
      rcases List.mem_map.mp ha with ⟨r, hr, hra⟩
      simp [← hra, hall r (hperm.mem_iff.mp hr)]
    simp only [listarEspecialidades, hnil]
    rfl
  · rintro ⟨r0, hr0, hr0ne⟩
    set lista := ((sortEspByNome catalog).map (fun r => jsTrim r.nome)).filter
      (fun s => s ≠ "") with hlista
    have hx0 : jsTrim r0.nome ∈ jsDedupAux [] lista := by
      rw [jsDedupAux_mem]
      exact ⟨(hmemlista _).mpr ⟨hr0ne, r0, hr0, rfl⟩, by simp⟩
    have hne : (jsDedupAux [] lista).isEmpty = false := by
      rcases hl : jsDedupAux [] lista with _ | ⟨a, t⟩
      · rw [hl] at hx0; cases hx0
      · rfl
    refine ⟨jsDedupAux [] lista, ?_, List.ne_nil_of_mem hx0,
      jsDedupAux_nodup [] lista, ?_, ?_⟩
    · simp only [listarEspecialidades, ← hlista, hne]
      rfl
    · intro x
      rw [jsDedupAux_mem]
      simp only [List.not_mem_nil, not_false_iff, and_true]
      exact hmemlista x
    · intro htrim
      have hsorted : (sortEspByNome catalog).Sorted espLe :=
        List.sorted_insertionSort espLe catalog
      have hmapeq : (sortEspByNome catalog).map (fun r => jsTrim r.nome) =
          (sortEspByNome catalog).map Especialidade.nome :=
        List.map_congr_left (fun r hr => htrim r (hperm.mem_iff.mp hr))
      have hpmap : ((sortEspByNome catalog).map (fun r => jsTrim r.nome)).Pairwise
          (fun x y => lexLe x.toList y.toList = true) := by
        rw [hmapeq, List.pairwise_map]
        exact hsorted
      exact (hpmap.sublist (List.filter_sublist _)).sublist (jsDedupAux_sublist _ _)

/-- Witness for C10: the all-blank catalog fails; a two-name catalog yields
the de-duplicated non-blank list with its characterization. -/
theorem c10_list_specialties_witness :
    listarEspecialidades [⟨1, " "⟩] = .fail "Nenhuma especialidade cadastrada." ∧
    (∃ l, listarEspecialidades [⟨1, "Cardiologia"⟩, ⟨2, "Cardiologia"⟩, ⟨3, ""⟩] =
        .ok l ∧ l ≠ [] ∧ l.Nodup ∧
      (∀ x, x ∈ l ↔ (x ≠ "" ∧
        ∃ r ∈ ([⟨1, "Cardiologia"⟩, ⟨2, "Cardiologia"⟩, ⟨3, ""⟩] : List Especialidade),
          jsTrim r.nome = x)) ∧
      ((∀ r ∈ ([⟨1, "Cardiologia"⟩, ⟨2, "Cardiologia"⟩, ⟨3, ""⟩] : List Especialidade),
          jsTrim r.nome = r.nome) →
        l.Sorted (fun x y => lexLe x.toList y.toList = true))) :=
  ⟨(c10_list_specialties [⟨1, " "⟩]).1 (by decide),
   (c10_list_specialties [⟨1, "Cardiologia"⟩, ⟨2, "Cardiologia"⟩, ⟨3, ""⟩]).2
     (by decide)⟩

/-! ### The specialty resolver (`normalizeEspecialidadeTerm`,
`_resolveEspecialidadeIds`) -/

/-- Map a precomposed Latin-1 letter to its base letter: the model of
`normalize('NFD').replace(/[̀-ͯ]/g, '')` on the Portuguese
alphabet. -/
def charStrip (c : Char) : Char :=
  match c with
  | 'á' | 'à' | 'â' | 'ã' | 'ä' => 'a'
  | 'é' | 'è' | 'ê' | 'ë' => 'e'
  | 'í' | 'ì' | 'î' | 'ï' => 'i'
  | 'ó' | 'ò' | 'ô' | 'õ' | 'ö' => 'o'
  | 'ú' | 'ù' | 'û' | 'ü' => 'u'
  | 'ç' => 'c'
  | 'ñ' => 'n'
  | 'Á' | 'À' | 'Â' | 'Ã' | 'Ä' => 'A'
  | 'É' | 'È' | 'Ê' | 'Ë' => 'E'
  | 'Í' | 'Ì' | 'Î' | 'Ï' => 'I'
  | 'Ó' | 'Ò' | 'Ô' | 'Õ' | 'Ö' => 'O'
  | 'Ú' | 'Ù' | 'Û' | 'Ü' => 'U'
  | 'Ç' => 'C'
  | _ => c

/-- The `strip` helper of `normalizeEspecialidadeTerm`. -/
def stripDiacritics (s : String) : String := String.mk (s.toList.map charStrip)

/-- The alias table of `normalizeEspecialidadeTerm`, keyed by the
lower-cased trimmed term. -/
def aliasLookup (t : String) : Option String :=
  match t with
  | "cardiologista" => some "cardiologia"
  | "dermatologista" => some "dermatologia"
  | "ginecologista" => some "ginecologia"
  | "obstetra" => some "obstetrícia"
  | "ortopedista" => some "ortopedia"
  | "pediatra" => some "pediatria"
  | "psiquiatra" => some "psiquiatria"
  | "neurologista" => some "neurologia"
  | "urologista" => some "urologia"
  | "oftalmologista" => some "oftalmologia"
  | "otorrinolaringologista" => some "otorrinolaringologia"
  | "reumatologista" => some "reumatologia"
  | "endocrinologista" => some "endocrinologia"
  | "infectologista" => some "infectologia"
  | "pneumologista" => some "pneumologia"
  | "gastroenterologista" => some "gastroenterologia"
  | "nefrologista" => some "nefrologia"
  | "hematologista" => some "hematologia"
  | "oncologista" => some "oncologia"
  | "alergista" => some "alergologia"
  | "geriatra" => some "geriatria"
  | "nutrólogo" => some "nutrologia"
  | "clínico" => some "clínica médica"
  | "clínico geral" => some "clínica médica"
  | "dermato" => some "dermatologia"
  | "cardio" => some "cardiologia"
  | "gineco" => some "ginecologia"
  | "oftalmo" => some "oftalmologia"
  | "otorrino" => some "otorrinolaringologia"
  | "reumato" => some "reumatologia"
  | "orto" => some "ortopedia"
  | "gastro" => some "gastroenterologia"
  | "pneumo" => some "pneumologia"
  | "neuro" => some "neurologia"
  | "endo" => some "endocrinologia"
  | "nutrologo" => some "nutrologia"
  | "clinico" => some "clínica médica"
  | "clinico geral" => some "clínica médica"
  | _ => none

/-- The diacritic-free view of the alias table (`aliasNo`), keyed by the
stripped lower-cased term: each key of the table stripped of accents, later
entries overwriting earlier ones as `Object.fromEntries` does. -/
def aliasNoLookup (tn : String) : Option String :=
  match tn with
  | "cardiologista" => some "cardiologia"
  | "dermatologista" => some "dermatologia"
  | "ginecologista" => some "ginecologia"
  | "obstetra" => some "obstetrícia"
  | "ortopedista" => some "ortopedia"
  | "pediatra" => some "pediatria"
  | "psiquiatra" => some "psiquiatria"
  | "neurologista" => some "neurologia"
  | "urologista" => some "urologia"
  | "oftalmologista" => some "oftalmologia"
  | "otorrinolaringologista" => some "otorrinolaringologia"
  | "reumatologista" => some "reumatologia"
  | "endocrinologista" => some "endocrinologia"
  | "infectologista" => some "infectologia"
  | "pneumologista" => some "pneumologia"
  | "gastroenterologista" => some "gastroenterologia"
  | "nefrologista" => some "nefrologia"
  | "hematologista" => some "hematologia"
  | "oncologista" => some "oncologia"
  | "alergista" => some "alergologia"
  | "geriatra" => some "geriatria"
  | "nutrologo" => some "nutrologia"
  | "clinico" => some "clínica médica"
  | "clinico geral" => some "clínica médica"
  | "dermato" => some "dermatologia"
  | "cardio" => some "cardiologia"
  | "gineco" => some "ginecologia"
  | "oftalmo" => some "oftalmologia"
  | "otorrino" => some "otorrinolaringologia"
  | "reumato" => some "reumatologia"
  | "orto" => some "ortopedia"
  | "gastro" => some "gastroenterologia"
  | "pneumo" => some "pneumologia"
  | "neuro" => some "neurologia"
  | "endo" => some "endocrinologia"
  | _ => none

/-- Suffix test on character lists. -/
def endsWithL (l suf : List Char) : Bool := isPrefixL suf.reverse l.reverse

/-- JavaScript `t.replace(/suf$/i, new)` for a lower-case `t` and suffix:
drop the suffix when present and append the replacement. -/
def jsReplaceSuffix (t suf new : String) : String :=
  if endsWithL t.toList suf.toList then
    String.mk (t.toList.take (t.toList.length - suf.toList.length) ++ new.toList)
  else t

/-- Embedding of `normalizeEspecialidadeTerm`: lower-cased trimmed term
through the alias table, then its stripped form through the
diacritic-free table, then the ordered suffix-rewriting heuristics
(`ologista → ologia`, `logista → logia`, `iatra → iatria`, `ista → ia`),
falling back to the original argument. -/
def normalizeEspecialidadeTerm (s : String) : String :=
  let t := jsLower (jsTrim s)
  let tn := stripDiacritics t
  match aliasLookup t with
  | some v => v
  | none =>
    match aliasNoLookup tn with
    | some v => v
    | none =>
      if endsWithL tn.toList "ologista".toList then jsReplaceSuffix t "ologista" "ologia"
      else if endsWithL tn.toList "logista".toList then jsReplaceSuffix t "logista" "logia"
      else if endsWithL tn.toList "iatra".toList then jsReplaceSuffix t "iatra" "iatria"
      else if endsWithL tn.toList "ista".toList then jsReplaceSuffix t "ista" "ia"
      else s

/-- Ids of the catalog rows whose name contains the term, case-insensitive —
one `ilike '%term%'` query of `_resolveEspecialidadeIds`. -/
def rawMatchIds (catalog : List Especialidade) (term : String) : List Nat :=
  (catalog.filter (fun r => ilikeContains r.nome term)).map (fun r => r.id)

/-- Embedding of `_resolveEspecialidadeIds`: an explicit id short-circuits;
otherwise substring-match the raw trimmed term first and only on zero hits
retry with the normalized/aliased term; no match is an empty list, not an
error. -/
def resolveEspecialidadeIds (catalog : List Especialidade)
    (especialidadeId : Option Nat) (especialidadeNome : Option String) :
    List Nat :=
  match especialidadeId with
  | some i => [i]
  | none =>
    match especialidadeNome with
    | none => []
    | some nm =>
      if nm = "" then []
      else
        if rawMatchIds catalog (jsTrim nm) = [] ∧
            normalizeEspecialidadeTerm (jsTrim nm) ≠ "" ∧
            normalizeEspecialidadeTerm (jsTrim nm) ≠ jsTrim nm then
          rawMatchIds catalog (normalizeEspecialidadeTerm (jsTrim nm))
        else rawMatchIds catalog (jsTrim nm)

theorem resolve_nome_eq (catalog : List Especialidade) (nm : String)
    (hne : ¬ nm = "") :
    resolveEspecialidadeIds catalog none (some nm) =
      if rawMatchIds catalog (jsTrim nm) = [] ∧
          normalizeEspecialidadeTerm (jsTrim nm) ≠ "" ∧
          normalizeEspecialidadeTerm (jsTrim nm) ≠ jsTrim nm then
        rawMatchIds catalog (normalizeEspecialidadeTerm (jsTrim nm))
      else rawMatchIds catalog (jsTrim nm) := by
  simp only [resolveEspecialidadeIds]
  rw [if_neg hne]

/-- Counterexample to the final part of claim C7 as stated.  A catalog that
contains the canonical specialty `Cardiologia` but also a name containing
the raw term (`Clinica do Cardiologista`) resolves the two terms to
different id sets, because the raw-term substring pass hits the latter. -/
theorem c7_counterexample :
    resolveEspecialidadeIds [⟨1, "Cardiologia"⟩, ⟨2, "Clinica do Cardiologista"⟩]
      none (some "cardiologista") = [2] ∧
    resolveEspecialidadeIds [⟨1, "Cardiologia"⟩, ⟨2, "Clinica do Cardiologista"⟩]
      none (some "cardiologia") = [1] := by
  decide

/-- Claim C7 as amended.  The resolver substring-matches the raw trimmed
term first and returns those ids whenever there is at least one; only on
zero raw hits does it retry with the normalized/aliased term (when that
differs and is non-empty), and a miss on both passes is the empty list,
not an error.  The alias equivalence
`resolveSpecialtyIds("cardiologista") = resolveSpecialtyIds("cardiologia")`
holds for every catalog in which no specialty name contains the raw string
`cardiologista` — the caveat the counterexample forces. -/
theorem c7_resolve_specialty (catalog : List Especialidade) (nm : String)
    (hne : ¬ nm = "") :
    (rawMatchIds catalog (jsTrim nm) ≠ [] →
      resolveEspecialidadeIds catalog none (some nm) =
        rawMatchIds catalog (jsTrim nm)) ∧
    (rawMatchIds catalog (jsTrim nm) = [] →
      (normalizeEspecialidadeTerm (jsTrim nm) = jsTrim nm ∨
        normalizeEspecialidadeTerm (jsTrim nm) = "") →
      resolveEspecialidadeIds catalog none (some nm) = []) ∧
    (rawMatchIds catalog (jsTrim nm) = [] →
      normalizeEspecialidadeTerm (jsTrim nm) ≠ jsTrim nm →
      normalizeEspecialidadeTerm (jsTrim nm) ≠ "" →
      resolveEspecialidadeIds catalog none (some nm) =
        rawMatchIds catalog (normalizeEspecialidadeTerm (jsTrim nm))) ∧
    ((∀ r ∈ catalog, ilikeContains r.nome "cardiologista" = false) →
      resolveEspecialidadeIds catalog none (some "cardiologista") =
        resolveEspecialidadeIds catalog none (some "cardiologia")) := by
  refine ⟨?_, ?_, ?_, ?_⟩
  · intro hraw
    rw [resolve_nome_eq catalog nm hne]
    rw [if_neg (fun hc => hraw hc.1)]
  · intro hraw hsame
    rw [resolve_nome_eq catalog nm hne]
    rw [if_neg ?_, hraw]
    rintro ⟨_, hne2, hneq⟩
    rcases hsame with h | h
    · exact hneq h
    · exact hne2 h
  · intro hraw hneq hne2
    rw [resolve_nome_eq catalog nm hne]
    rw [if_pos ⟨hraw, hne2, hneq⟩]
  · intro hnocard
    have hraw1 : rawMatchIds catalog "cardiologista" = [] := by
      unfold rawMatchIds
      rw [List.filter_eq_nil_iff.mpr (fun r hr => by simp [hnocard r hr])]
      rfl
    have h1 : resolveEspecialidadeIds catalog none (some "cardiologista") =
        rawMatchIds catalog "cardiologia" := by
      rw [resolve_nome_eq catalog "cardiologista" (by decide)]
      rw [show jsTrim "cardiologista" = "cardiologista" from by decide,
        show normalizeEspecialidadeTerm "cardiologista" = "cardiologia" from by decide]
      rw [if_pos ⟨hraw1, by decide, by decide⟩]
    have h2 : resolveEspecialidadeIds catalog none (some "cardiologia") =
        rawMatchIds catalog "cardiologia" := by
      rw [resolve_nome_eq catalog "cardiologia" (by decide)]
      rw [show jsTrim "cardiologia" = "cardiologia" from by decide,
        show normalizeEspecialidadeTerm "cardiologia" = "cardiologia" from by decide]
      rw [if_neg ?_]
      rintro ⟨_, _, hcc⟩
      exact hcc rfl
    rw [h1, h2]

/-- Witness for C7: a one-entry catalog — the raw pass misses
`cardiologista`, the aliased retry hits `Cardiologia`, and both terms
resolve to the same id set. -/
theorem c7_resolve_specialty_witness :
    (rawMatchIds [⟨1, "Cardiologia"⟩] (jsTrim "cardiologista") ≠ [] →
      resolveEspecialidadeIds [⟨1, "Cardiologia"⟩] none (some "cardiologista") =
        rawMatchIds [⟨1, "Cardiologia"⟩] (jsTrim "cardiologista")) ∧
    (rawMatchIds [⟨1, "Cardiologia"⟩] (jsTrim "cardiologista") = [] →
      (normalizeEspecialidadeTerm (jsTrim "cardiologista") = jsTrim "cardiologista" ∨
        normalizeEspecialidadeTerm (jsTrim "cardiologista") = "") →
      resolveEspecialidadeIds [⟨1, "Cardiologia"⟩] none (some "cardiologista") = []) ∧
    (rawMatchIds [⟨1, "Cardiologia"⟩] (jsTrim "cardiologista") = [] →
      normalizeEspecialidadeTerm (jsTrim "cardiologista") ≠ jsTrim "cardiologista" →
      normalizeEspecialidadeTerm (jsTrim "cardiologista") ≠ "" →
      resolveEspecialidadeIds [⟨1, "Cardiologia"⟩] none (some "cardiologista") =
        rawMatchIds [⟨1, "Cardiologia"⟩]
          (normalizeEspecialidadeTerm (jsTrim "cardiologista"))) ∧
    ((∀ r ∈ ([⟨1, "Cardiologia"⟩] : List Especialidade),
        ilikeContains r.nome "cardiologista" = false) →
      resolveEspecialidadeIds [⟨1, "Cardiologia"⟩] none (some "cardiologista") =
        resolveEspecialidadeIds [⟨1, "Cardiologia"⟩] none (some "cardiologia")) :=
  c7_resolve_specialty [⟨1, "Cardiologia"⟩] "cardiologista" (by decide)

/-! ### The doctor resolver (`listarMedicosDB`) -/

/-- Row returned by the catalog-side `search_medicos_v2` similarity search:
a normalized (`sim_clean`) and a raw (`sim`) similarity score.  The
JavaScript float scores are modelled as rationals. -/
structure MedRow where
  id : Nat
  nome : String
  especialidade_id : Option Nat
  sim : Option ℚ
  sim_clean : Option ℚ
deriving DecidableEq, Repr

/-- A scored candidate: `score = Math.max(m.sim ?? 0, m.sim_clean ?? 0)`. -/
structure Cand where
  id : Nat
  nome : String
  especialidadeId : Option Nat
  score : ℚ
deriving DecidableEq, Repr

/-- Candidate as returned to the caller, score dropped. -/
structure MedInfo where
  id : Nat
  nome : String
  especialidadeId : Option Nat
deriving DecidableEq, Repr

/-- The score of one search row. -/
def scoreOf (m : MedRow) : ℚ := max (m.sim.getD 0) (m.sim_clean.getD 0)

/-- Build the scored candidate of one search row. -/
def candOf (m : MedRow) : Cand := ⟨m.id, m.nome, m.especialidade_id, scoreOf m⟩

/-- Descending-score relation of `[...candidates].sort((a, b) => b.score - a.score)`. -/
def candLe (a b : Cand) : Prop := b.score ≤ a.score

instance : DecidableRel candLe := fun a b => by unfold candLe; infer_instance

instance : IsTotal Cand candLe := ⟨fun a b => le_total b.score a.score⟩

instance : IsTrans Cand candLe := ⟨fun _ _ _ h1 h2 => le_trans h2 h1⟩

/-- The stable descending sort of the candidates by score. -/
def sortByScoreDesc (l : List Cand) : List Cand := List.insertionSort candLe l

/-- `Number(best.score.toFixed(3))`: round to three decimals. -/
def jsRound3 (q : ℚ) : ℚ := ((round (q * 1000) : ℤ) : ℚ) / 1000

/-- `Math.min(Number(args.limite || 8), 200)`. -/
def pageSizeOf (limite : Option Nat) : Nat :=
  min (match limite with | none => 8 | some 0 => 8 | some k => k) 200

/-- The auto-resolution outcome: resolved id, ambiguity flag, reason and
confidence. -/
structure Resolution where
  resolvedMedicoId : Option Nat
  ambiguous : Bool
  resolvedBy : Option String
  confidence : Option ℚ
deriving DecidableEq, Repr

/-- First resolution rule of `listarMedicosDB`: exactly one candidate and
no further pages resolves with reason `unique` and confidence 1. -/
def uniqueRule (hasMore : Bool) (candidates : List Cand) : Resolution :=
  if hasMore = false ∧ candidates.length = 1 then
    match candidates.head? with
    | some c => ⟨some c.id, false, some "unique", some 1⟩
    | none => ⟨none, true, none, none⟩
  else ⟨none, true, none, none⟩

/-- Second resolution rule of `listarMedicosDB`, applied to the best-scored
candidate `b`: resolve with reason `db_fuzzy` when the best score reaches
the 0.82 threshold and either no second candidate exists or the gap to it
reaches the 0.12 margin. -/
def fuzzyRule (hasMore : Bool) (candidates : List Cand) (b : Cand) : Resolution :=
  if (82/100 : ℚ) ≤ b.score ∧
      (match ((sortByScoreDesc candidates).take 2)[1]? with
       | none => true
       | some sec => decide ((12/100 : ℚ) ≤ b.score - sec.score)) = true then
    ⟨some b.id, false, some "db_fuzzy", some (jsRound3 b.score)⟩
  else uniqueRule hasMore candidates

/-- The auto-resolution policy of `listarMedicosDB`: the unique-result rule
first, then the fuzzy rule on the top-two scored candidates, else
ambiguous. -/
def resolvePolicy (hasMore : Bool) (candidates : List Cand) : Resolution :=
  if (uniqueRule hasMore candidates).resolvedMedicoId = none then
    match ((sortByScoreDesc candidates).take 2).head? with
    | some b => fuzzyRule hasMore candidates b
    | none => uniqueRule hasMore candidates
  else uniqueRule hasMore candidates

/-- Result object of `listarMedicosDB`; absent JSON fields are `none`. -/
structure MedListResult where
  ok : Bool
  medicos : List MedInfo
  hasMore : Bool
  ambiguous : Option Bool
  resolvedMedicoId : Option Nat
  resolvedBy : Option String
  confidence : Option ℚ
  needBusca : Bool
deriving DecidableEq, Repr

/-- Embedding of `listarMedicosDB` given the rows the similarity search
returned (the store-side `search_medicos_v2` is called with
`lim = pageSize + 1`; `hasMore` checks whether it returned more than a
page): empty search text short-circuits with `needBusca`, otherwise the
page is scored and the auto-resolution policy applied. -/
def listarMedicos (rows : List MedRow) (busca : String) (limite : Option Nat) :
    MedListResult :=
  if jsTrim busca = "" then
    ⟨true, [], false, none, none, none, none, true⟩
  else
    let pageSize := pageSizeOf limite
    let hasMore := decide (pageSize < rows.length)
    let candidates := (rows.take pageSize).map candOf
    let r := resolvePolicy hasMore candidates
    ⟨true, candidates.map (fun c => ⟨c.id, c.nome, c.especialidadeId⟩), hasMore,
      some r.ambiguous, r.resolvedMedicoId, r.resolvedBy, r.confidence, false⟩

theorem listarMedicos_fields (rows : List MedRow) (busca : String)
    (limite : Option Nat) (hne : ¬ jsTrim busca = "") :
    listarMedicos rows busca limite =
      ⟨true,
        ((rows.take (pageSizeOf limite)).map candOf).map
          (fun c => ⟨c.id, c.nome, c.especialidadeId⟩),
        decide (pageSizeOf limite < rows.length),
        some (resolvePolicy (decide (pageSizeOf limite < rows.length))
          ((rows.take (pageSizeOf limite)).map candOf)).ambiguous,
        (resolvePolicy (decide (pageSizeOf limite < rows.length))
          ((rows.take (pageSizeOf limite)).map candOf)).resolvedMedicoId,
        (resolvePolicy (decide (pageSizeOf limite < rows.length))
          ((rows.take (pageSizeOf limite)).map candOf)).resolvedBy,
        (resolvePolicy (decide (pageSizeOf limite < rows.length))
          ((rows.take (pageSizeOf limite)).map candOf)).confidence,
        false⟩ := by
  simp only [listarMedicos]
  rw [if_neg hne]

theorem resolvePolicy_unique (c : Cand) :
    resolvePolicy false [c] = ⟨some c.id, false, some "unique", some 1⟩ := rfl

theorem uniqueRule_off (hasMore : Bool) (candidates : List Cand)
    (hnu : ¬ (hasMore = false ∧ candidates.length = 1)) :
    uniqueRule hasMore candidates = ⟨none, true, none, none⟩ := by
  unfold uniqueRule
  rw [if_neg hnu]

theorem resolvePolicy_fuzzy (hasMore : Bool) (candidates : List Cand) (b : Cand)
    (hnu : ¬ (hasMore = false ∧ candidates.length = 1))
    (hbest : ((sortByScoreDesc candidates).take 2).head? = some b)
    (hthr : (82/100 : ℚ) ≤ b.score)
    (hmargin : ∀ sec, ((sortByScoreDesc candidates).take 2)[1]? = some sec →
      (12/100 : ℚ) ≤ b.score - sec.score) :
    resolvePolicy hasMore candidates =
      ⟨some b.id, false, some "db_fuzzy", some (jsRound3 b.score)⟩ := by
  unfold resolvePolicy
  rw [uniqueRule_off hasMore candidates hnu]
  rw [if_pos (show (⟨none, true, none, none⟩ : Resolution).resolvedMedicoId = none from rfl)]
  rw [hbest]
  show fuzzyRule hasMore candidates b = _
  unfold fuzzyRule
  cases hsec : ((sortByScoreDesc candidates).take 2)[1]? with
  | none => rw [if_pos ⟨hthr, rfl⟩]
  | some sec => rw [if_pos ⟨hthr, decide_eq_true (hmargin sec hsec)⟩]

theorem resolvePolicy_ambiguous (hasMore : Bool) (candidates : List Cand)
    (hnu : ¬ (hasMore = false ∧ candidates.length = 1))
    (hfail : ∀ b, ((sortByScoreDesc candidates).take 2).head? = some b →
      ¬ ((82/100 : ℚ) ≤ b.score ∧
        (((sortByScoreDesc candidates).take 2)[1]? = none ∨
          ∃ sec, ((sortByScoreDesc candidates).take 2)[1]? = some sec ∧
            (12/100 : ℚ) ≤ b.score - sec.score))) :
    resolvePolicy hasMore candidates = ⟨none, true, none, none⟩ := by
  unfold resolvePolicy
  rw [uniqueRule_off hasMore candidates hnu]
  rw [if_pos (show (⟨none, true, none, none⟩ : Resolution).resolvedMedicoId = none from rfl)]
  cases hbest : ((sortByScoreDesc candidates).take 2).head? with
  | none => rfl
  | some b =>
      show fuzzyRule hasMore candidates b = _
      unfold fuzzyRule
      rw [uniqueRule_off hasMore candidates hnu]
      cases hsec : ((sortByScoreDesc candidates).take 2)[1]? with
      | none =>
          rw [if_neg ?_]
          rintro ⟨h1, _⟩
          exact hfail b hbest ⟨h1, Or.inl hsec⟩
      | some sec =>
          rw [if_neg ?_]
          rintro ⟨h1, h2⟩
          exact hfail b hbest ⟨h1, Or.inr ⟨sec, hsec, of_decide_eq_true h2⟩⟩

/-- The head of the descending sort dominates every candidate score. -/
theorem sortByScoreDesc_head_max (candidates : List Cand) (b : Cand)
    (hbest : ((sortByScoreDesc candidates).take 2).head? = some b) :
    ∀ c ∈ candidates, c.score ≤ b.score := by
  intro c hc
  have hsorted : (sortByScoreDesc candidates).Sorted candLe :=
    List.sorted_insertionSort candLe candidates
  have hmem : c ∈ sortByScoreDesc candidates :=
    (List.perm_insertionSort candLe candidates).mem_iff.mpr hc
  rcases hl : sortByScoreDesc candidates with _ | ⟨a, t⟩
  · rw [hl] at hmem; cases hmem
  · have hba : b = a := by
      rw [hl] at hbest
      simp only [List.take, List.head?] at hbest
      exact (Option.some.injEq _ _ ▸ hbest).symm
    rw [hl] at hmem hsorted
    rcases List.mem_cons.mp hmem with rfl | hct
    · rw [hba]
    · rw [hba]
      exact (List.pairwise_cons.mp hsorted).1 c hct

/-- Search rows of the claim's example: two candidates scored 0.55 and
0.50. -/
def c6ExRows : List MedRow :=
  [⟨10, "Ana Souza", none, some (55/100), some (55/100)⟩,
   ⟨11, "Ana Mendes", none, some (50/100), some (50/100)⟩]

/-- Claim C6.  The auto-resolution policy of `listarMedicosDB`: a unique
candidate with no further pages resolves with reason `unique` and
confidence 1; otherwise, on the top-two of the score-sorted page (where the
head dominates every candidate score), best score ≥ 0.82 together with no
second candidate or a gap ≥ 0.12 resolves with reason `db_fuzzy` and
confidence the best score rounded to three decimals; in every other case
the result is ambiguous with no resolved id — in particular for the example
scores 0.55 and 0.50. -/
theorem c6_doctor_resolution (rows : List MedRow) (busca : String)
    (limite : Option Nat) (hne : ¬ jsTrim busca = "") :
    (∀ c, (rows.take (pageSizeOf limite)).map candOf = [c] →
      decide (pageSizeOf limite < rows.length) = false →
      (listarMedicos rows busca limite).resolvedMedicoId = some c.id ∧
      (listarMedicos rows busca limite).resolvedBy = some "unique" ∧
      (listarMedicos rows busca limite).confidence = some 1 ∧
      (listarMedicos rows busca limite).ambiguous = some false) ∧
    (∀ b, ¬ (decide (pageSizeOf limite < rows.length) = false ∧
        ((rows.take (pageSizeOf limite)).map candOf).length = 1) →
      ((sortByScoreDesc ((rows.take (pageSizeOf limite)).map candOf)).take 2).head? =
        some b →
      (82/100 : ℚ) ≤ b.score →
      (∀ sec, ((sortByScoreDesc ((rows.take (pageSizeOf limite)).map candOf)).take
          2)[1]? = some sec → (12/100 : ℚ) ≤ b.score - sec.score) →
      (listarMedicos rows busca limite).resolvedMedicoId = some b.id ∧
      (listarMedicos rows busca limite).resolvedBy = some "db_fuzzy" ∧
      (listarMedicos rows busca limite).confidence = some (jsRound3 b.score) ∧
      (listarMedicos rows busca limite).ambiguous = some false) ∧
    (¬ (decide (pageSizeOf limite < rows.length) = false ∧
        ((rows.take (pageSizeOf limite)).map candOf).length = 1) →
      (∀ b, ((sortByScoreDesc ((rows.take (pageSizeOf limite)).map candOf)).take
          2).head? = some b →
        ¬ ((82/100 : ℚ) ≤ b.score ∧
          (((sortByScoreDesc ((rows.take (pageSizeOf limite)).map candOf)).take
              2)[1]? = none ∨
            ∃ sec, ((sortByScoreDesc ((rows.take (pageSizeOf limite)).map
                candOf)).take 2)[1]? = some sec ∧
              (12/100 : ℚ) ≤ b.score - sec.score))) →
      (listarMedicos rows busca limite).ambiguous = some true ∧
      (listarMedicos rows busca limite).resolvedMedicoId = none ∧
      (listarMedicos rows busca limite).resolvedBy = none) ∧
    (∀ b, ((sortByScoreDesc ((rows.take (pageSizeOf limite)).map candOf)).take
        2).head? = some b →
      ∀ c ∈ (rows.take (pageSizeOf limite)).map candOf, c.score ≤ b.score) ∧
    ((listarMedicos c6ExRows "Ana" none).ambiguous = some true ∧
      (listarMedicos c6ExRows "Ana" none).resolvedMedicoId = none) := by
  have hlm := listarMedicos_fields rows busca limite hne
  refine ⟨?_, ?_, ?_, ?_, ?_⟩
  · intro c hc hm
    rw [hlm, hc, hm]
    rw [resolvePolicy_unique c]
    exact ⟨rfl, rfl, rfl, rfl⟩
  · intro b hnu hbest hthr hmargin
    rw [hlm, resolvePolicy_fuzzy _ _ b hnu hbest hthr hmargin]
    exact ⟨rfl, rfl, rfl, rfl⟩
  · intro hnu hfail
    rw [hlm, resolvePolicy_ambiguous _ _ hnu hfail]
    exact ⟨rfl, rfl, rfl⟩
  · intro b hbest
    exact sortByScoreDesc_head_max _ b hbest
  · have hne2 : ¬ jsTrim "Ana" = "" := by decide
    have hlm2 := listarMedicos_fields c6ExRows "Ana" none hne2
    have hcand : (c6ExRows.take (pageSizeOf none)).map candOf =
        [⟨10, "Ana Souza", none, 55/100⟩, ⟨11, "Ana Mendes", none, 50/100⟩] := by
      simp [c6ExRows, pageSizeOf, candOf, scoreOf]
    have hm : decide (pageSizeOf none < c6ExRows.length) = false := by decide
    have hsort : sortByScoreDesc
        [(⟨10, "Ana Souza", none, 55/100⟩ : Cand), ⟨11, "Ana Mendes", none, 50/100⟩] =
        [⟨10, "Ana Souza", none, 55/100⟩, ⟨11, "Ana Mendes", none, 50/100⟩] := by
      simp only [sortByScoreDesc, List.insertionSort, List.orderedInsert]
      rw [if_pos (by norm_num [candLe])]
    have hres : resolvePolicy false
        [(⟨10, "Ana Souza", none, 55/100⟩ : Cand), ⟨11, "Ana Mendes", none, 50/100⟩] =
        ⟨none, true, none, none⟩ := by
      refine resolvePolicy_ambiguous _ _ (by decide) ?_
      intro b hb
      rw [hsort] at hb
      have hb1 : b = ⟨10, "Ana Souza", none, 55/100⟩ := by
        simp only [List.take, List.head?, Option.some.injEq] at hb
        exact hb.symm
      rintro ⟨h1, _⟩
      rw [hb1] at h1
      norm_num at h1
    rw [hlm2, hcand, hm, hres]
    exact ⟨rfl, rfl⟩

/-- Witness for C6: the policy characterization at the example rows and a
concrete non-empty search string. -/
theorem c6_doctor_resolution_witness :
    (∀ c, (c6ExRows.take (pageSizeOf none)).map candOf = [c] →
      decide (pageSizeOf none < c6ExRows.length) = false →
      (listarMedicos c6ExRows "Ana" none).resolvedMedicoId = some c.id ∧
      (listarMedicos c6ExRows "Ana" none).resolvedBy = some "unique" ∧
      (listarMedicos c6ExRows "Ana" none).confidence = some 1 ∧
      (listarMedicos c6ExRows "Ana" none).ambiguous = some false) ∧
    (∀ b, ¬ (decide (pageSizeOf none < c6ExRows.length) = false ∧
        ((c6ExRows.take (pageSizeOf none)).map candOf).length = 1) →
      ((sortByScoreDesc ((c6ExRows.take (pageSizeOf none)).map candOf)).take
        2).head? = some b →
      (82/100 : ℚ) ≤ b.score →
      (∀ sec, ((sortByScoreDesc ((c6ExRows.take (pageSizeOf none)).map candOf)).take
          2)[1]? = some sec → (12/100 : ℚ) ≤ b.score - sec.score) →
      (listarMedicos c6ExRows "Ana" none).resolvedMedicoId = some b.id ∧
      (listarMedicos c6ExRows "Ana" none).resolvedBy = some "db_fuzzy" ∧
      (listarMedicos c6ExRows "Ana" none).confidence = some (jsRound3 b.score) ∧
      (listarMedicos c6ExRows "Ana" none).ambiguous = some false) ∧
    (¬ (decide (pageSizeOf none < c6ExRows.length) = false ∧
        ((c6ExRows.take (pageSizeOf none)).map candOf).length = 1) →
      (∀ b, ((sortByScoreDesc ((c6ExRows.take (pageSizeOf none)).map candOf)).take
          2).head? = some b →
        ¬ ((82/100 : ℚ) ≤ b.score ∧
          (((sortByScoreDesc ((c6ExRows.take (pageSizeOf none)).map candOf)).take
              2)[1]? = none ∨
            ∃ sec, ((sortByScoreDesc ((c6ExRows.take (pageSizeOf none)).map
                candOf)).take 2)[1]? = some sec ∧
              (12/100 : ℚ) ≤ b.score - sec.score))) →
      (listarMedicos c6ExRows "Ana" none).ambiguous = some true ∧
      (listarMedicos c6ExRows "Ana" none).resolvedMedicoId = none ∧
      (listarMedicos c6ExRows "Ana" none).resolvedBy = none) ∧
    (∀ b, ((sortByScoreDesc ((c6ExRows.take (pageSizeOf none)).map candOf)).take
        2).head? = some b →
      ∀ c ∈ (c6ExRows.take (pageSizeOf none)).map candOf, c.score ≤ b.score) ∧
    ((listarMedicos c6ExRows "Ana" none).ambiguous = some true ∧
      (listarMedicos c6ExRows "Ana" none).resolvedMedicoId = none) :=
  c6_doctor_resolution c6ExRows "Ana" none (by decide)

/-! ### The time-zone range calculator (`helpers/datetime.js`)

The zone database behind `Intl` is abstracted as an offset function
`off : Int → Int` (minutes east of UTC at a millisecond instant);
`offsetMinutesAt` of the source is exactly this function.  The `en-CA`
`YYYY-MM-DD` formatter is modelled as the local civil day expressed as its
epoch-day number. -/

/-- Days since 1970-01-01 of a civil date (months 1–12, day free to roll
over) — the field-to-day arithmetic of `Date.UTC`. -/
def daysFromCivil (y m d : Int) : Int :=
  let y1 := y - (if m ≤ 2 then 1 else 0)
  let era := Int.fdiv y1 400
  let yoe := y1 - era * 400
  let doy := Int.fdiv (153 * (m + (if 2 < m then -3 else 9)) + 2) 5 + d - 1
  let doe := yoe * 365 + Int.fdiv yoe 4 - Int.fdiv yoe 100 + doy
  era * 146097 + doe - 719468

/-- `Date.UTC(y, mIdx, d)` in milliseconds: the zero-based month index
rolls over into the year, the day offsets freely. -/
def dateUTCms (y mIdx d : Int) : Int :=
  daysFromCivil (y + Int.fdiv mIdx 12) (Int.emod mIdx 12 + 1) d * 86400000

/-- Embedding of `utcFromTZComponents`: naive UTC guess, offset there,
re-guess, offset at the corrected guess — the two-pass fixed point. -/
def utcFromTZComponents (off : Int → Int) (y M d : Int) : Int :=
  let naive := dateUTCms y (M - 1) d
  let off1 := off naive
  let guess := naive - off1 * 60000
  let off2 := off guess
  naive - off2 * 60000

/-- The local civil day (epoch-day number) of an instant — the model of the
`en-CA` `YYYY-MM-DD` formatter. -/
def localDay (off : Int → Int) (t : Int) : Int :=
  Int.fdiv (t + off t * 60000) 86400000

/-- UTC instant of local midnight of epoch day `n`: `utcFromTZComponents`
at that civil date. -/
def civilMidnight (off : Int → Int) (n : Int) : Int :=
  let naive := n * 86400000
  let guess := naive - off naive * 60000
  naive - off guess * 60000

/-- A `[startUTC, endUTC)` day range in milliseconds. -/
structure DayRange where
  startUTC : Int
  endUTC : Int
deriving DecidableEq, Repr

/-- JavaScript `Number(part)` on a split component, as far as the range
calculator exercises it: empty string is 0, decimal digits (with an
optional sign) their value, anything else NaN (`none`). -/
def jsNumber (s : String) : Option Int :=
  let l := s.toList
  if l.isEmpty then some 0
  else if l.all (fun c => c.isDigit) then
    some (l.foldl (fun acc c => acc * 10 + ((c.toNat : Int) - 48)) 0)
  else if l.head? = some '-' ∧ ¬ (l.drop 1).isEmpty ∧
      (l.drop 1).all (fun c => c.isDigit) then
    some (- (l.drop 1).foldl (fun acc c => acc * 10 + ((c.toNat : Int) - 48)) 0)
  else none

/-- `String.prototype.split('-')` on a character list. -/
def splitOnDashAux : List Char → List Char → List (List Char)
  | [], acc => [acc.reverse]
  | c :: rest, acc =>
      if c = '-' then acc.reverse :: splitOnDashAux rest []
      else splitOnDashAux rest (c :: acc)

/-- `ymd.split('-')`. -/
def splitOnDash (s : String) : List String :=
  (splitOnDashAux s.toList []).map String.mk

/-- Embedding of `dayRangeUTCFromYYYYMMDD`: split on `-`, `Number` the
first three parts, build the local-midnight instant and add 24 hours.
`none` models the `RangeError` thrown when a component is NaN (an invalid
`Date` reaches the `Intl` formatter); a shape-valid but calendar-invalid
date rolls over silently, exactly as `Date.UTC` does. -/
def dayRangeUTCFromYYYYMMDD (off : Int → Int) (ymd : String) : Option DayRange :=
  match (splitOnDash ymd).map jsNumber with
  | some y :: some M :: some d :: _ =>
      let startUTC := utcFromTZComponents off y M d
      some ⟨startUTC, startUTC + 86400000⟩
  | _ => none

/-- Embedding of `nextDayRangeUTC`: the range of tomorrow relative to the
civil today of `now`. -/
def nextDayRangeUTC (off : Int → Int) (now : Int) : DayRange :=
  let todayStart := civilMidnight off (localDay off now)
  ⟨todayStart + 86400000, todayStart + 2 * 86400000⟩

/-- The `^\d{4}-\d{2}-\d{2}$` shape test guarding `args.dia` in the query
operations. -/
def isYmdShape (s : String) : Bool :=
  match s.toList with
  | [y1, y2, y3, y4, h1, m1, m2, h2, d1, d2] =>
      y1.isDigit && y2.isDigit && y3.isDigit && y4.isDigit && h1 = '-' &&
      m1.isDigit && m2.isDigit && h2 = '-' && d1.isDigit && d2.isDigit
  | _ => false

/-- Interval selection of `listarHorariosMedicoDB` (and the other
day-scoped queries): a shape-valid `dia` yields that day's range, anything
else silently falls back to tomorrow. -/
def intervalForDia (off : Int → Int) (now : Int) (dia : Option String) :
    Option DayRange :=
  match dia with
  | some d =>
      if isYmdShape d then dayRangeUTCFromYYYYMMDD off d
      else some (nextDayRangeUTC off now)
  | none => some (nextDayRangeUTC off now)

/-- Counterexample to claim C8 as stated.  The calendar-invalid day
`2025-02-30` does not fail: it silently yields a successful range — the
range of `2025-03-02` (a São Paulo offset of −180 minutes). -/
theorem c8_counterexample :
    (dayRangeUTCFromYYYYMMDD (fun _ => -180) "2025-02-30").isSome = true ∧
    dayRangeUTCFromYYYYMMDD (fun _ => -180) "2025-02-30" =
      dayRangeUTCFromYYYYMMDD (fun _ => -180) "2025-03-02" := by
  decide

/-- Claim C8 as amended.  Malformed `ymd` inputs are not rejected with an
`InvalidDateFormat` error: a shape-valid but calendar-invalid day rolls
over silently to another day's range (for every offset function), a
non-numeric input throws (surfaced as a generic failure), and the query
operations guard with the shape regex and silently substitute the default
day — tomorrow — for any non-matching `dia`. -/
theorem c8_malformed_ymd (off : Int → Int) (now : Int) :
    (∀ d, isYmdShape d = false →
      intervalForDia off now (some d) = some (nextDayRangeUTC off now)) ∧
    dayRangeUTCFromYYYYMMDD off "2025-02-30" =
      dayRangeUTCFromYYYYMMDD off "2025-03-02" ∧
    (dayRangeUTCFromYYYYMMDD off "2025-02-30").isSome = true ∧
    dayRangeUTCFromYYYYMMDD off "banana" = none := by
  refine ⟨?_, rfl, rfl, rfl⟩
  intro d hd
  simp only [intervalForDia]
  rw [if_neg (by simp [hd])]

/-- Witness for C8: the fallback fired at a concrete malformed `dia`, and
the rollover facts at the fixed São Paulo offset. -/
theorem c8_malformed_ymd_witness :
    (∀ d, isYmdShape d = false →
      intervalForDia (fun _ => -180) 0 (some d) =
        some (nextDayRangeUTC (fun _ => -180) 0)) ∧
    dayRangeUTCFromYYYYMMDD (fun _ => -180) "2025-02-30" =
      dayRangeUTCFromYYYYMMDD (fun _ => -180) "2025-03-02" ∧
    (dayRangeUTCFromYYYYMMDD (fun _ => -180) "2025-02-30").isSome = true ∧
    dayRangeUTCFromYYYYMMDD (fun _ => -180) "banana" = none :=
  c8_malformed_ymd (fun _ => -180) 0

/-! ### The weekly agenda (`listarAgendaSemanalMedicoDB`) -/

/-- Slot item as pushed into the agenda (the locale display string is
presentation only and not modelled). -/
structure SlotView where
  id : Nat
  isoUTC : Int
  medicoId : String
  medicoNome : Option String
  duracaoMin : Option Int
deriving DecidableEq, Repr

/-- One agenda day: the local civil day and its slot items. -/
structure AgendaDia where
  dia : Int
  slots : List SlotView
deriving DecidableEq, Repr

/-- Result of `listarAgendaSemanalMedicoDB`. -/
inductive WeeklyResult where
  | ok (inicio : Int) (dias : Int) (medicoNome : Option String)
      (agenda : List AgendaDia)
  | fail (message : String)
deriving DecidableEq, Repr

/-- The embedded `medicos ( id, nome )` join of the slot queries. -/
def joinMedicoNome (db : DB) (mid : String) : Option String :=
  (db.medicos.find? (fun m => m.id == mid)).map (fun m => m.nome)

/-- Build the slot item of one row. -/
def toView (db : DB) (r : Slot) : SlotView :=
  ⟨r.id, r.datetime, r.medico_id, joinMedicoNome db r.medico_id, r.duration_min⟩

/-- The `order('datetime', { ascending: true })` of the slot queries. -/
def sortByDatetimeAsc (l : List Slot) : List Slot :=
  List.insertionSort (fun a b => a.datetime ≤ b.datetime) l

/-- Weekday of an epoch day, 0 = Sunday … 6 = Saturday: the model of the
`en-US` short-weekday formatter composed with the `wkMap` table (epoch day
0, 1970-01-01, was a Thursday). -/
def weekdayIdx (n : Int) : Int := Int.emod (n + 4) 7

/-- Local midnight (UTC instant) of the civil today of `now` — step 2 of
`listarAgendaSemanalMedicoDB`. -/
def todayStartOf (off : Int → Int) (now : Int) : Int :=
  civilMidnight off (localDay off now)

/-- `(7 - todayIdx) % 7` of steps 3 — days from civil today to the coming
Sunday (0 when today is Sunday). -/
def daysUntilSundayOf (off : Int → Int) (now : Int) : Int :=
  Int.emod (7 - weekdayIdx (localDay off (todayStartOf off now))) 7

/-- Exclusive end of the window — end of Sunday, step 4. -/
def endOfSundayOf (off : Int → Int) (now : Int) : Int :=
  civilMidnight off (localDay off
    (todayStartOf off now + daysUntilSundayOf off now * 86400000)) + 86400000

/-- The window query of step 5: free slots of the doctor between local
midnight today and the end of Sunday, ordered by time. -/
def weekRowsOf (off : Int → Int) (now : Int) (db : DB) (medicoId : String) :
    List Slot :=
  sortByDatetimeAsc (db.slots.filter (fun s =>
    s.medico_id == medicoId && decide (todayStartOf off now ≤ s.datetime) &&
    decide (s.datetime < endOfSundayOf off now) && s.status == "livre"))

/-- One agenda entry of step 7: the civil day `i` 24-hour steps after local
midnight today, its rows (the `Map` grouping read back per day, modelled
extensionally as a per-day filter of the ordered rows), the first day
trimmed to instants at or after `now`. -/
def agendaDayOf (off : Int → Int) (now : Int) (db : DB) (medicoId : String)
    (i : Nat) : AgendaDia :=
  let d := localDay off (todayStartOf off now + (i : Int) * 86400000)
  let daySlots := ((weekRowsOf off now db medicoId).filter
    (fun r => localDay off r.datetime == d)).map (toView db)
  if i = 0 then ⟨d, daySlots.filter (fun v => decide (now ≤ v.isoUTC))⟩
  else ⟨d, daySlots⟩

/-- Embedding of `listarAgendaSemanalMedicoDB`: civil today through civil
Sunday inclusive, one entry per 24-hour step from local midnight of
today. -/
def listarAgendaSemanalMedico (off : Int → Int) (now : Int) (db : DB)
    (medicoIdArg : String) : WeeklyResult :=
  if jsTrim medicoIdArg = "" then .fail "medicoId é obrigatório."
  else
    .ok (localDay off now) (daysUntilSundayOf off now + 1)
      ((weekRowsOf off now db (jsTrim medicoIdArg)).head?.bind
        (fun r => joinMedicoNome db r.medico_id))
      ((List.range (daysUntilSundayOf off now + 1).toNat).map
        (agendaDayOf off now db (jsTrim medicoIdArg)))

/-- Under a fixed-offset zone, stepping local midnight by `i` days lands on
civil day `today + i`. -/
theorem localDay_civilMidnight_add (c n i : Int) :
    localDay (fun _ => c) (civilMidnight (fun _ => c) n + i * 86400000) = n + i := by
  show Int.fdiv (n * 86400000 - c * 60000 + i * 86400000 + c * 60000) 86400000 = n + i
  rw [show n * 86400000 - c * 60000 + i * 86400000 + c * 60000 =
    (n + i) * 86400000 from by ring]
  rw [Int.fdiv_eq_ediv _ (by norm_num)]
  omega

/-- Local midnight of civil day `n` lies on civil day `n` (fixed offset). -/
theorem localDay_civilMidnight (c n : Int) :
    localDay (fun _ => c) (civilMidnight (fun _ => c) n) = n := by
  have h := localDay_civilMidnight_add c n 0
  simpa using h

/-- `Int.emod` is the `%` of `Int`, definitionally. -/
theorem intEmod_eq_mod (a b : Int) : Int.emod a b = a % b := rfl

/-- Under a fixed offset the days-until-Sunday count is computed from the
weekday of civil today itself. -/
theorem daysUntilSundayOf_const (c now : Int) :
    daysUntilSundayOf (fun _ => c) now =
      Int.emod (7 - weekdayIdx (localDay (fun _ => c) now)) 7 := by
  unfold daysUntilSundayOf todayStartOf
  rw [localDay_civilMidnight]

/-- The `i`-th agenda entry is labelled with civil day `today + i`. -/
theorem agendaDayOf_dia (c now : Int) (db : DB) (mid : String) (i : Nat) :
    (agendaDayOf (fun _ => c) now db mid i).dia =
      localDay (fun _ => c) now + (i : Int) := by
  have hD : localDay (fun _ => c)
      (todayStartOf (fun _ => c) now + (i : Int) * 86400000) =
      localDay (fun _ => c) now + (i : Int) := by
    unfold todayStartOf
    exact localDay_civilMidnight_add c _ _
  simp only [agendaDayOf]
  by_cases h0 : i = 0
  · rw [if_pos h0]
    exact hD
  · rw [if_neg h0]
    exact hD

/-- For `i ≠ 0` the entry's slots are exactly the window rows of civil day
`today + i` (no now-filter). -/
theorem agendaDayOf_slots_pos (c now : Int) (db : DB) (mid : String) (i : Nat)
    (h0 : ¬ i = 0) :
    (agendaDayOf (fun _ => c) now db mid i).slots =
      ((weekRowsOf (fun _ => c) now db mid).filter
        (fun r => localDay (fun _ => c) r.datetime ==
          localDay (fun _ => c) now + (i : Int))).map (toView db) := by
  have hD : localDay (fun _ => c)
      (todayStartOf (fun _ => c) now + (i : Int) * 86400000) =
      localDay (fun _ => c) now + (i : Int) := by
    unfold todayStartOf
    exact localDay_civilMidnight_add c _ _
  simp only [agendaDayOf]
  rw [if_neg h0, hD]

/-- The first entry's slots are today's window rows trimmed to instants at
or after `now`. -/
theorem agendaDayOf_slots_zero (c now : Int) (db : DB) (mid : String) :
    (agendaDayOf (fun _ => c) now db mid 0).slots =
      (((weekRowsOf (fun _ => c) now db mid).filter
        (fun r => localDay (fun _ => c) r.datetime ==
          localDay (fun _ => c) now)).map (toView db)).filter
        (fun v => decide (now ≤ v.isoUTC)) := by
  have hD : localDay (fun _ => c) (todayStartOf (fun _ => c) now) =
      localDay (fun _ => c) now := by
    unfold todayStartOf
    exact localDay_civilMidnight c _
  simp only [agendaDayOf, Nat.cast_zero, zero_mul, add_zero]
  rw [if_pos trivial, hD]

/-- **C9.** Under a fixed-offset clinic zone `weeklyDoctorAgenda` succeeds
(given a non-blank doctor id) and returns one agenda entry per civil day
from today through the coming Sunday inclusive: `totalDays` equals
days-until-Sunday + 1 and is 1 when today is Sunday, the day stepped
`daysUntilSunday` after today is a Sunday, entry `i` is labelled civil day
`today + i`, its slots are the free window rows of that civil day (the
first entry additionally trimmed to instants at or after `now`), and a day
with no free rows still appears, with an empty slots list. -/
theorem c9_weekly_agenda (c now : Int) (db : DB) (medicoIdArg : String)
    (hne : ¬ jsTrim medicoIdArg = "") :
    listarAgendaSemanalMedico (fun _ => c) now db medicoIdArg =
      .ok (localDay (fun _ => c) now) (daysUntilSundayOf (fun _ => c) now + 1)
        ((weekRowsOf (fun _ => c) now db (jsTrim medicoIdArg)).head?.bind
          (fun r => joinMedicoNome db r.medico_id))
        ((List.range (daysUntilSundayOf (fun _ => c) now + 1).toNat).map
          (agendaDayOf (fun _ => c) now db (jsTrim medicoIdArg))) ∧
    ((List.range (daysUntilSundayOf (fun _ => c) now + 1).toNat).map
      (agendaDayOf (fun _ => c) now db (jsTrim medicoIdArg))).length =
        (daysUntilSundayOf (fun _ => c) now + 1).toNat ∧
    daysUntilSundayOf (fun _ => c) now + 1 =
      Int.emod (7 - weekdayIdx (localDay (fun _ => c) now)) 7 + 1 ∧
    (weekdayIdx (localDay (fun _ => c) now) = 0 →
      daysUntilSundayOf (fun _ => c) now + 1 = 1) ∧
    weekdayIdx (localDay (fun _ => c) now +
      daysUntilSundayOf (fun _ => c) now) = 0 ∧
    (∀ i : Nat,
      (agendaDayOf (fun _ => c) now db (jsTrim medicoIdArg) i).dia =
        localDay (fun _ => c) now + (i : Int)) ∧
    (∀ i : Nat, ¬ i = 0 →
      (agendaDayOf (fun _ => c) now db (jsTrim medicoIdArg) i).slots =
        ((weekRowsOf (fun _ => c) now db (jsTrim medicoIdArg)).filter
          (fun r => localDay (fun _ => c) r.datetime ==
            localDay (fun _ => c) now + (i : Int))).map (toView db)) ∧
    (agendaDayOf (fun _ => c) now db (jsTrim medicoIdArg) 0).slots =
      (((weekRowsOf (fun _ => c) now db (jsTrim medicoIdArg)).filter
        (fun r => localDay (fun _ => c) r.datetime ==
          localDay (fun _ => c) now)).map (toView db)).filter
        (fun v => decide (now ≤ v.isoUTC)) ∧
    (∀ i : Nat,
      (∀ r ∈ weekRowsOf (fun _ => c) now db (jsTrim medicoIdArg),
        ¬ localDay (fun _ => c) r.datetime = localDay (fun _ => c) now + (i : Int)) →
      (agendaDayOf (fun _ => c) now db (jsTrim medicoIdArg) i).slots = []) := by
  refine ⟨?_, ?_, ?_, ?_, ?_, ?_, ?_, ?_, ?_⟩
  · unfold listarAgendaSemanalMedico
    rw [if_neg hne]
  · simp
  · rw [daysUntilSundayOf_const]
  · intro h
    rw [daysUntilSundayOf_const, h]
    decide
  · rw [daysUntilSundayOf_const]
    unfold weekdayIdx
    simp only [intEmod_eq_mod]
    omega
  · intro i
    exact agendaDayOf_dia c now db (jsTrim medicoIdArg) i
  · intro i h0
    exact agendaDayOf_slots_pos c now db (jsTrim medicoIdArg) i h0
  · exact agendaDayOf_slots_zero c now db (jsTrim medicoIdArg)
  · intro i hnone
    by_cases h0 : i = 0
    · subst h0
      rw [agendaDayOf_slots_zero]
      have hnil : (weekRowsOf (fun _ => c) now db (jsTrim medicoIdArg)).filter
          (fun r => localDay (fun _ => c) r.datetime ==
            localDay (fun _ => c) now) = [] := by
        rw [List.filter_eq_nil_iff]
        intro r hr
        simp only [beq_iff_eq]
        have h := hnone r hr
        simpa using h
      rw [hnil]
      rfl
    · rw [agendaDayOf_slots_pos c now db (jsTrim medicoIdArg) i h0]
      have hnil : (weekRowsOf (fun _ => c) now db (jsTrim medicoIdArg)).filter
          (fun r => localDay (fun _ => c) r.datetime ==
            localDay (fun _ => c) now + (i : Int)) = [] := by
        rw [List.filter_eq_nil_iff]
        intro r hr
        simp only [beq_iff_eq]
        exact hnone r hr
      rw [hnil]
      rfl

/-- Witness for C9 at the fixed São Paulo offset: a blank store and epoch
instant give a five-day agenda (1969-12-31, a Wednesday, through Sunday),
every day present with an empty slot list. -/
theorem c9_weekly_agenda_witness :
    listarAgendaSemanalMedico (fun _ => -180) 0 ⟨[], [], []⟩ "m1" =
      .ok (-1) 5 none [⟨-1, []⟩, ⟨0, []⟩, ⟨1, []⟩, ⟨2, []⟩, ⟨3, []⟩] ∧
    daysUntilSundayOf (fun _ => -180) 0 + 1 = 5 := by
  have h := c9_weekly_agenda (-180) 0 ⟨[], [], []⟩ "m1" (by decide)
  refine ⟨?_, by decide⟩
  rw [h.1]
  decide

end IaClinics
